import Mathlib

/-!
# 4viewports: the DAT container reader and the per-viewport frame timer

A shallow embedding of `src/4viewports.c`:

* `ReadDatFile` (lines 82-181) reads a header, then `NumImages` frame records
  (content header, payload, trailer), turning each payload into a bitmap handle;
  its `fail:` label deletes the handles stored so far.
* the `WM_TIMER` and `WM_KEYDOWN`/`VK_F5` cases of `WndProc` (lines 323-360) and
  the lookup of `WM_PAINT` (lines 210-219), per entry of `g_Viewports`.

Bytes are natural numbers (a byte read from a file is below 256; nothing below
depends on that bound).  The file is the list of the bytes not yet read.
Memory allocation (`calloc`, `malloc`) is taken to succeed, as the source itself
does when it dereferences the result of `calloc` unchecked.
-/

namespace Viewports

/-! ## Constants and records -/

/-- The four bytes of `FILE_HEADER_TAG`, "FILE". -/
def FILE_HEADER_TAG : List Nat := [70, 73, 76, 69]

/-- The four bytes of `CONTENT_HEADER_TAG`, "IMAG". -/
def CONTENT_HEADER_TAG : List Nat := [73, 77, 65, 71]

/-- The four bytes of `CONTENT_TRAILER_TAG`, "TRAI". -/
def CONTENT_TRAILER_TAG : List Nat := [84, 82, 65, 73]

/-- Size of the packed `DatFileHeader`: `Signature[5]`, `preamble0`, two `uint16_t`. -/
def sizeofDatFileHeader : Nat := 10

/-- Size of the packed `DatFileContentHeader`: `Signature[5]`, `reserved[3]`, `size_t`. -/
def sizeofDatFileContentHeader : Nat := 16

/-- Size of the packed `DatFileContentTrailer`: `Signature[5]`, `reserved[3]`, `size_t`. -/
def sizeofDatFileContentTrailer : Nat := 16

/-- A bitmap handle; `0` is `NULL`. -/
abbrev HBITMAP := Nat

/-- The C struct `BitmapEntry`. -/
structure BitmapEntry where
  hBitmap : HBITMAP
  delay : Nat
  deriving DecidableEq

/-- The C struct `DatFile`.  `numBitmaps` is an `int` that is only ever assigned
from a `uint16_t`; `bitmaps` is the array allocated with `numBitmaps` entries. -/
structure DatFile where
  numBitmaps : Nat
  bitmaps : List BitmapEntry
  deriving DecidableEq

/-- Value of a little-endian field: least significant byte first. -/
def fromLE : List Nat → Nat
  | [] => 0
  | b :: bs => b + 256 * fromLE bs

/-- The `uint16_t NumImages` field: bytes 6 and 7 of the header. -/
def headerNumImages (header : List Nat) : Nat :=
  fromLE ((header.drop 6).take 2)

/-- The `uint16_t CycleTimeMs` field: bytes 8 and 9 of the header. -/
def headerCycleTimeMs (header : List Nat) : Nat :=
  fromLE ((header.drop 8).take 2)

/-- The `size_t` field at offset 8 of a content header or trailer. -/
def recordSize (rec : List Nat) : Nat :=
  fromLE ((rec.drop 8).take 8)

/-- One `fread` of `n` bytes that must be complete: the bytes read and the rest
of the file, or `none` when fewer than `n` bytes are left (the source leaves the
function on every short read). -/
def fread (n : Nat) (fp : List Nat) : Option (List Nat × List Nat) :=
  if n ≤ fp.length then some (fp.take n, fp.drop n) else none

/-! ## GDI objects -/

/-- What `ReadDatFile` does to bitmap objects: a handle obtained from `LoadImageA`,
or a handle passed to `DeleteObject`. -/
inductive GdiEvent where
  | create (h : HBITMAP)
  | delete (h : HBITMAP)
  deriving DecidableEq

/-- The handles obtained, in order. -/
def created : List GdiEvent → List HBITMAP
  | [] => []
  | .create h :: es => h :: created es
  | .delete _ :: es => created es

/-- The handles deleted, in order. -/
def deleted : List GdiEvent → List HBITMAP
  | [] => []
  | .create _ :: es => deleted es
  | .delete h :: es => h :: deleted es

/-- The live bitmap objects after a run of events, from the live objects before it. -/
def liveAfter (live : Multiset HBITMAP) : List GdiEvent → Multiset HBITMAP
  | [] => live
  | .create h :: es => liveAfter (h ::ₘ live) es
  | .delete h :: es => liveAfter (live.erase h) es

/-- `LoadBMPFromMemory`: `NULL` for an empty buffer, otherwise the handle that the
round trip through the temporary file and `LoadImageA` gives.  That round trip is
outside the program: `LoadImageA call data` is its answer for the bytes `data` at
the `call`-th decode of this run (`0` when the file cannot be written or is not a
bitmap).  The buffer itself is never `NULL` at the call: `ReadDatFile` leaves
before it when `malloc` gives `NULL`. -/
def LoadBMPFromMemory (LoadImageA : Nat → List Nat → HBITMAP) (call : Nat)
    (data : List Nat) (size : Nat) : HBITMAP :=
  if size = 0 then 0 else LoadImageA call data

/-! ## ReadDatFile -/

/-- The place where `ReadDatFile` gives up.  The source returns `NULL` at each of
them; the frame index is the loop variable `i`. -/
inductive FailSite where
  | fileOpen
  | headerRead
  | headerTag
  | contentRead (i : Nat)
  | contentTag (i : Nat)
  | payloadRead (i : Nat)
  | decode (i : Nat)
  | trailerRead (i : Nat)
  | trailerTag (i : Nat)
  | sizeCheck (i : Nat)
  deriving DecidableEq

/-- State at the end of the frame loop: the `goto fail` taken (if any), the array
`dat->bitmaps`, and the handles obtained. -/
structure LoopResult where
  failed : Option FailSite
  bitmaps : List BitmapEntry
  trace : List GdiEvent
  deriving DecidableEq

/-- The loop `for (i = 0; i < dat->numBitmaps; i++)` of `ReadDatFile`, with `n`
iterations left, at index `i`.  Each exit with a failure site is a `goto fail`.
The debug dump of the payload to `frame_i.bmp` changes nothing that is read
here and is left out. -/
def frameLoop (LoadImageA : Nat → List Nat → HBITMAP) (cycle : Nat) :
    Nat → Nat → List Nat → List BitmapEntry → LoopResult
  | 0, _, _, bitmaps => ⟨none, bitmaps, []⟩
  | n + 1, i, fp, bitmaps =>
    match fread sizeofDatFileContentHeader fp with
    | none => ⟨some (.contentRead i), bitmaps, []⟩
    | some (ch, fp1) =>
      if ch.take 4 ≠ CONTENT_HEADER_TAG then ⟨some (.contentTag i), bitmaps, []⟩
      else
        match fread (recordSize ch) fp1 with
        | none => ⟨some (.payloadRead i), bitmaps, []⟩
        | some (bmpData, fp2) =>
          let hBmp := LoadBMPFromMemory LoadImageA i bmpData (recordSize ch)
          if hBmp = 0 then ⟨some (.decode i), bitmaps, []⟩
          else
            let bitmaps1 := bitmaps.set i ⟨hBmp, cycle⟩
            match fread sizeofDatFileContentTrailer fp2 with
            | none => ⟨some (.trailerRead i), bitmaps1, [.create hBmp]⟩
            | some (ct, fp3) =>
              if ct.take 4 ≠ CONTENT_TRAILER_TAG then
                ⟨some (.trailerTag i), bitmaps1, [.create hBmp]⟩
              else if recordSize ct ≠ recordSize ch then
                ⟨some (.sizeCheck i), bitmaps1, [.create hBmp]⟩
              else
                let r := frameLoop LoadImageA cycle n (i + 1) fp3 bitmaps1
                ⟨r.failed, r.bitmaps, .create hBmp :: r.trace⟩

/-- The loop after the `fail:` label: `DeleteObject` on every non-null handle of
the array, in index order. -/
def failCleanup : List BitmapEntry → List GdiEvent
  | [] => []
  | e :: es => if e.hBitmap ≠ 0 then .delete e.hBitmap :: failCleanup es else failCleanup es

/-- What `ReadDatFile` returns: the container, or `NULL` (with the place where it
gave up). -/
inductive Ret where
  | ok (dat : DatFile)
  | null (site : FailSite)
  deriving DecidableEq

/-- Result of a call of `ReadDatFile`: the returned value, and what happened to
bitmap objects during the call. -/
structure Outcome where
  ret : Ret
  trace : List GdiEvent
  deriving DecidableEq

/-- `ReadDatFile`.  `file` is the content of the file at `path`, `none` when
`path` is `NULL` or the file cannot be opened. -/
def ReadDatFile (LoadImageA : Nat → List Nat → HBITMAP) (file : Option (List Nat)) :
    Outcome :=
  match file with
  | none => ⟨.null .fileOpen, []⟩
  | some fp =>
    match fread sizeofDatFileHeader fp with
    | none => ⟨.null .headerRead, []⟩
    | some (header, fp1) =>
      if header.take 4 ≠ FILE_HEADER_TAG then ⟨.null .headerTag, []⟩
      else
        let numBitmaps := headerNumImages header
        let r := frameLoop LoadImageA (headerCycleTimeMs header) numBitmaps 0 fp1
          (List.replicate numBitmaps ⟨0, 0⟩)
        match r.failed with
        | none => ⟨.ok ⟨numBitmaps, r.bitmaps⟩, r.trace⟩
        | some site => ⟨.null site, r.trace ++ failCleanup r.bitmaps⟩

/-- The returned pointer: the container, or `none` for `NULL`. -/
def Ret.dat : Ret → Option DatFile
  | .ok d => some d
  | .null _ => none

/-! ## Viewports -/

/-- The C struct `Viewport` without its window handle.  `currentFrame` is an
`int`, `lastUpdateTime` a `DWORD`. -/
structure Viewport where
  dat : Option DatFile
  currentFrame : Int
  lastUpdateTime : Nat
  deriving DecidableEq

/-- Subtraction of two `DWORD`s: the difference modulo `2^32`. -/
def dwordSub (a b : Nat) : Nat :=
  (a % 4294967296 + 4294967296 - b % 4294967296) % 4294967296

/-- The array access `dat->bitmaps[idx]`: `none` when `idx` is outside the
array, where the C program reads memory that is not part of it. -/
def entryAt (dat : DatFile) (idx : Int) : Option BitmapEntry :=
  if 0 ≤ idx then dat.bitmaps[idx.toNat]? else none

/-- Body of the `WM_TIMER` loop of `WndProc` for one entry of `g_Viewports`: the
new entry and whether `InvalidateRect` was called; `none` when the read of
`bitmaps[currentFrame]` is outside the array. -/
def timerTick (now : Nat) (vp : Viewport) : Option (Viewport × Bool) :=
  match vp.dat with
  | none => some (vp, false)
  | some dat =>
    match entryAt dat vp.currentFrame with
    | none => none
    | some bmp =>
      if dwordSub now vp.lastUpdateTime ≥ bmp.delay then
        let next := vp.currentFrame + 1
        let next := if next ≥ (dat.numBitmaps : Int) then 0 else next
        some (⟨vp.dat, next, now⟩, true)
      else some (vp, false)

/-- Body of the `VK_F5` loop of `WndProc` for one entry of `g_Viewports`: the new
entry and whether `InvalidateRect` was called. -/
def resetF5 (now : Nat) (vp : Viewport) : Viewport × Bool :=
  match vp.dat with
  | none => (vp, false)
  | some _ => (⟨vp.dat, 0, now⟩, true)

/-- Body of the `WM_PAINT` loop of `ViewportWndProc` for one entry: the bitmap
that is drawn, if any; the outer `none` is a read outside the array. -/
def paintLookup (vp : Viewport) : Option (Option HBITMAP) :=
  match vp.dat with
  | none => some none
  | some dat =>
    if vp.currentFrame < 0 ∨ vp.currentFrame ≥ (dat.numBitmaps : Int) then some none
    else
      match entryAt dat vp.currentFrame with
      | none => none
      | some e => some (if e.hBitmap = 0 then none else some e.hBitmap)

/-- Body of the loop of `CreateViewports` for one entry: the container read
from the file, frame 0, the tick count `t`. -/
def createViewport (LoadImageA : Nat → List Nat → HBITMAP) (file : Option (List Nat))
    (t : Nat) : Viewport :=
  ⟨(ReadDatFile LoadImageA file).ret.dat, 0, t⟩

/-- A message that changes a viewport, with the value `GetTickCount` returns
while it is handled. -/
inductive Msg where
  | timer (now : Nat)
  | keyF5 (now : Nat)
  deriving DecidableEq

/-- One message handled for one viewport. -/
def handle (vp : Viewport) : Msg → Option Viewport
  | .timer now => (timerTick now vp).map Prod.fst
  | .keyF5 now => some (resetF5 now vp).1

/-- A sequence of messages handled in order; `none` as soon as one of them
reads outside the array. -/
def handleAll (vp : Viewport) : List Msg → Option Viewport
  | [] => some vp
  | m :: ms =>
    match handle vp m with
    | none => none
    | some vp1 => handleAll vp1 ms

/-- The step function of `tick(now)` as the specification words it, to compare
`timerTick` with: no change for a viewport without a container; otherwise, with
`d` the delay of the frame at `currentFrame`, if `now - lastUpdateTime ≥ d`
(a difference of numbers, not of `DWORD`s) the index becomes
`(currentFrame + 1) mod numBitmaps`, the time stamp becomes `now` and the frame
has changed; otherwise nothing changes. -/
def tickSpec (now : Nat) (vp : Viewport) : Viewport × Bool :=
  match vp.dat with
  | none => (vp, false)
  | some dat =>
    let d := (dat.bitmaps.getD vp.currentFrame.toNat ⟨0, 0⟩).delay
    if (now : Int) - (vp.lastUpdateTime : Int) ≥ (d : Int) then
      (⟨vp.dat, (vp.currentFrame + 1) % (dat.numBitmaps : Int), now⟩, true)
    else (vp, false)

/-! ## Byte streams of containers

The streams that the statements below are about, laid out as the packed structs
`DatFileHeader`, `DatFileContentHeader` and `DatFileContentTrailer` are. -/

/-- The two bytes of a `uint16_t`, least significant first. -/
def le16 (n : Nat) : List Nat := [n % 256, n / 256 % 256]

/-- The eight bytes of a 64-bit `size_t`, least significant first. -/
def le64 (n : Nat) : List Nat :=
  [n % 256, n / 256 % 256, n / 65536 % 256, n / 16777216 % 256,
   n / 4294967296 % 256, n / 1099511627776 % 256, n / 281474976710656 % 256,
   n / 72057594037927936 % 256]

/-- The bytes of a `DatFileHeader`: the tag, the fifth byte of `Signature`,
`preamble0`, `NumImages`, `CycleTimeMs`. -/
def headerBytes (tag : List Nat) (sig4 preamble0 numImages cycleTimeMs : Nat) : List Nat :=
  tag ++ [sig4, preamble0] ++ le16 numImages ++ le16 cycleTimeMs

/-- One frame record of a stream, field by field: the content header (tag, the
four bytes between the tag and the size, `PayloadSize`), the payload, and the
trailer (tag, four bytes, `PrevContentSize`). -/
structure FrameRecord where
  htag : List Nat
  hpad : List Nat
  declared : Nat
  payload : List Nat
  ttag : List Nat
  tpad : List Nat
  echoed : Nat
  deriving DecidableEq

/-- The bytes of a frame record. -/
def FrameRecord.bytes (f : FrameRecord) : List Nat :=
  f.htag ++ f.hpad ++ le64 f.declared ++ f.payload ++ f.ttag ++ f.tpad ++ le64 f.echoed

/-- The bytes of a sequence of frame records. -/
def framesBytes : List FrameRecord → List Nat
  | [] => []
  | f :: fs => f.bytes ++ framesBytes fs

/-- A frame record as the format wants it: tag `IMAG`, a declared size that is
the length of the payload, tag `TRAI`, the same size echoed. -/
def FrameRecord.wellFormed (f : FrameRecord) : Prop :=
  f.htag = CONTENT_HEADER_TAG ∧ f.hpad.length = 4 ∧ f.declared = f.payload.length ∧
  f.declared < 18446744073709551616 ∧
  f.ttag = CONTENT_TRAILER_TAG ∧ f.tpad.length = 4 ∧ f.echoed = f.declared

instance (f : FrameRecord) : Decidable f.wellFormed := by
  unfold FrameRecord.wellFormed; infer_instance

/-- Every record of the list is well formed and the decoder accepts its payload,
the first record being decoded at call `i`. -/
def framesAccepted (LoadImageA : Nat → List Nat → HBITMAP) : Nat → List FrameRecord → Prop
  | _, [] => True
  | i, f :: fs =>
    (f.wellFormed ∧ LoadBMPFromMemory LoadImageA i f.payload f.payload.length ≠ 0) ∧
    framesAccepted LoadImageA (i + 1) fs

instance framesAccepted.decide (LoadImageA : Nat → List Nat → HBITMAP) :
    ∀ (i : Nat) (fs : List FrameRecord), Decidable (framesAccepted LoadImageA i fs)
  | _, [] => isTrue trivial
  | i, _ :: fs => @instDecidableAnd _ _ inferInstance (framesAccepted.decide LoadImageA (i + 1) fs)

/-- The array entries that the records of an accepted list give, the first one
decoded at call `i`. -/
def entriesOf (LoadImageA : Nat → List Nat → HBITMAP) (cycle : Nat) :
    Nat → List FrameRecord → List BitmapEntry
  | _, [] => []
  | i, f :: fs => ⟨LoadImageA i f.payload, cycle⟩ :: entriesOf LoadImageA cycle (i + 1) fs

/-- The error names of the specification. -/
inductive ParseError where
  | IoError
  | BadMagic
  | Truncated
  | SizeMismatch
  | DecodeFailed
  deriving DecidableEq

/-- The specification's name for a failure at each place: a tag comparison that
fails is `BadMagic`, an incomplete read `Truncated`, the size comparison
`SizeMismatch`, a null handle `DecodeFailed`, a file that cannot be opened
`IoError`. -/
def specErrorOf : FailSite → ParseError
  | .fileOpen => .IoError
  | .headerRead => .Truncated
  | .headerTag => .BadMagic
  | .contentRead _ => .Truncated
  | .contentTag _ => .BadMagic
  | .payloadRead _ => .Truncated
  | .decode _ => .DecodeFailed
  | .trailerRead _ => .Truncated
  | .trailerTag _ => .BadMagic
  | .sizeCheck _ => .SizeMismatch

/-- The number of handles `ReadDatFile` has obtained when it gives up at a place:
in frame `i`, the `i` handles of the frames before, and the handle of frame `i`
itself once its payload is decoded. -/
def FailSite.handles : FailSite → Nat
  | .fileOpen => 0
  | .headerRead => 0
  | .headerTag => 0
  | .contentRead i => i
  | .contentTag i => i
  | .payloadRead i => i
  | .decode i => i
  | .trailerRead i => i + 1
  | .trailerTag i => i + 1
  | .sizeCheck i => i + 1

/-- What the frame loop leaves, started at index `filled.length` on an array
whose entries from that index on are the `n` zeroed ones of `calloc`: the array
is the entries before, the entries stored (`stored`), and zeroed entries; each
stored entry has a non-null handle and the delay `cycle`; the handles obtained
are those of the stored entries; without a failure no zeroed entry is left; at
a failure the entries before and the stored ones are as many as `handles` says. -/
def LoopShape (cycle : Nat) (filled : List BitmapEntry) (n : Nat) (r : LoopResult) : Prop :=
  ∃ (stored : List BitmapEntry) (k : Nat),
    r.bitmaps = filled ++ stored ++ List.replicate k (BitmapEntry.mk 0 0) ∧
    stored.length + k = n ∧
    (∀ e ∈ stored, e.hBitmap ≠ 0 ∧ e.delay = cycle) ∧
    r.trace = stored.map (fun e => GdiEvent.create e.hBitmap) ∧
    (r.failed = none → k = 0) ∧
    (∀ site, r.failed = some site → site.handles = filled.length + stored.length)

/-- The stream of a container: a header with the tag `FILE` that announces as
many images as there are records, then the records. -/
def containerBytes (sig4 preamble0 cycleTimeMs : Nat) (frames : List FrameRecord) : List Nat :=
  headerBytes FILE_HEADER_TAG sig4 preamble0 frames.length cycleTimeMs ++ framesBytes frames

/-! ## Examples -/

/-- The well-formed record of a payload, with zero bytes after both tags. -/
def frameOf (payload : List Nat) : FrameRecord :=
  ⟨CONTENT_HEADER_TAG, [0, 0, 0, 0], payload.length, payload,
    CONTENT_TRAILER_TAG, [0, 0, 0, 0], payload.length⟩

/-- A decoder that makes a bitmap of any bytes: the decode at call `i` gives the
handle `i + 1`. -/
def countingDecoder : Nat → List Nat → HBITMAP := fun i _ => i + 1

/-- Two records, with payloads of three and two bytes. -/
def twoFrames : List FrameRecord := [frameOf [66, 77, 1], frameOf [66, 77]]

/-! ## Reading fields back -/

theorem fread_append (n : Nat) (xs ys : List Nat) (h : xs.length = n) :
    fread n (xs ++ ys) = some (xs, ys) := by
  subst h
  simp [fread]

theorem fread_short (n : Nat) (fp : List Nat) (h : fp.length < n) : fread n fp = none := by
  simp [fread, h]

theorem fromLE_le16 (n : Nat) (h : n < 65536) : fromLE (le16 n) = n := by
  simp only [le16, fromLE]
  omega

theorem fromLE_le64 (n : Nat) (h : n < 18446744073709551616) : fromLE (le64 n) = n := by
  simp only [le64, fromLE]
  omega

theorem le64_length (n : Nat) : (le64 n).length = 8 := rfl

theorem record_length (tag pad : List Nat) (n : Nat) (ht : tag.length = 4)
    (hp : pad.length = 4) : (tag ++ pad ++ le64 n).length = 16 := by
  simp [ht, hp, le64_length]

theorem record_tag (tag pad rest : List Nat) (ht : tag.length = 4) :
    (tag ++ pad ++ rest).take 4 = tag := by
  rw [List.append_assoc, ← ht, List.take_left]

theorem record_size (tag pad : List Nat) (n : Nat) (ht : tag.length = 4)
    (hp : pad.length = 4) (hn : n < 18446744073709551616) :
    recordSize (tag ++ pad ++ le64 n) = n := by
  have h8 : (tag ++ pad).length = 8 := by simp [ht, hp]
  unfold recordSize
  rw [List.drop_left' h8, List.take_of_length_le (by simp [le64_length]), fromLE_le64 n hn]

/-! ## The array of the frame loop -/

theorem set_next (filled : List BitmapEntry) (n : Nat) (z e : BitmapEntry) :
    (filled ++ List.replicate (n + 1) z).set filled.length e =
      (filled ++ [e]) ++ List.replicate n z := by
  induction filled with
  | nil => simp [List.replicate_succ]
  | cons a as ih => simpa using ih

theorem loopShape_stop (cycle : Nat) (filled : List BitmapEntry) (n : Nat) (site : FailSite)
    (hs : site.handles = filled.length) :
    LoopShape cycle filled n ⟨some site, filled ++ List.replicate n (BitmapEntry.mk 0 0), []⟩ :=
  ⟨[], n, by simp [hs]⟩

theorem loopShape_stop_stored (cycle : Nat) (filled : List BitmapEntry) (n : Nat)
    (site : FailSite) (h : HBITMAP) (hh : h ≠ 0) (hs : site.handles = filled.length + 1) :
    LoopShape cycle filled (n + 1)
      ⟨some site, (filled ++ List.replicate (n + 1) (BitmapEntry.mk 0 0)).set filled.length
        ⟨h, cycle⟩, [.create h]⟩ :=
  ⟨[⟨h, cycle⟩], n, by
    simp only [set_next]
    refine ⟨by simp, by simp; omega, ?_, by simp, by simp, by simp [hs]⟩
    intro e he
    rw [List.mem_singleton.1 he]
    exact ⟨hh, rfl⟩⟩

theorem frameLoop_shape (LoadImageA : Nat → List Nat → HBITMAP) (cycle : Nat) :
    ∀ (n : Nat) (filled : List BitmapEntry) (fp : List Nat),
      LoopShape cycle filled n
        (frameLoop LoadImageA cycle n filled.length fp
          (filled ++ List.replicate n (BitmapEntry.mk 0 0))) := by
  intro n
  induction n with
  | zero =>
    intro filled fp
    exact ⟨[], 0, by simp [frameLoop]⟩
  | succ n ih =>
    intro filled fp
    rw [frameLoop]
    dsimp only
    split
    · exact loopShape_stop _ _ _ _ rfl
    · split
      · exact loopShape_stop _ _ _ _ rfl
      · split
        · exact loopShape_stop _ _ _ _ rfl
        · split
          · exact loopShape_stop _ _ _ _ rfl
          · rename_i hh
            generalize LoadBMPFromMemory LoadImageA filled.length _ _ = h at hh ⊢
            split
            · exact loopShape_stop_stored _ _ _ _ _ hh rfl
            · split
              · exact loopShape_stop_stored _ _ _ _ _ hh rfl
              · split
                · exact loopShape_stop_stored _ _ _ _ _ hh rfl
                · rename_i _ _ _ fp3 _ _ _
                  rw [set_next]
                  obtain ⟨stored, k, h1, h2, h3, h4, h5, h6⟩ := ih (filled ++ [⟨h, cycle⟩]) fp3
                  simp only [List.length_append, List.length_singleton] at h1 h4 h5 h6
                  refine ⟨⟨h, cycle⟩ :: stored, k, ?_, ?_, ?_, ?_, ?_, ?_⟩
                  · simpa using h1
                  · simp; omega
                  · intro e he
                    rcases List.mem_cons.1 he with rfl | he
                    · exact ⟨hh, rfl⟩
                    · exact h3 e he
                  · simpa using h4
                  · simpa using h5
                  · intro site hsite
                    have := h6 site (by simpa using hsite)
                    simp only [List.length_cons]
                    omega

/-! ## The cleanup loop and the live objects -/

theorem failCleanup_append (a b : List BitmapEntry) :
    failCleanup (a ++ b) = failCleanup a ++ failCleanup b := by
  induction a with
  | nil => rfl
  | cons e es ih =>
    by_cases he : e.hBitmap = 0 <;> simp [failCleanup, he, ih]

theorem failCleanup_zeroed (k : Nat) :
    failCleanup (List.replicate k (BitmapEntry.mk 0 0)) = [] := by
  induction k with
  | zero => rfl
  | succ k ih => simp [List.replicate_succ, failCleanup, ih]

theorem failCleanup_stored (stored : List BitmapEntry)
    (h : ∀ e ∈ stored, e.hBitmap ≠ 0) :
    failCleanup stored = stored.map (fun e => GdiEvent.delete e.hBitmap) := by
  induction stored with
  | nil => rfl
  | cons e es ih =>
    have he : e.hBitmap ≠ 0 := h e (List.mem_cons_self _ _)
    have hes : ∀ x ∈ es, x.hBitmap ≠ 0 := fun x hx => h x (List.mem_cons_of_mem _ hx)
    simp [failCleanup, he, ih hes]

theorem created_append (a b : List GdiEvent) : created (a ++ b) = created a ++ created b := by
  induction a with
  | nil => rfl
  | cons e es ih => cases e <;> simp [created, ih]

theorem deleted_append (a b : List GdiEvent) : deleted (a ++ b) = deleted a ++ deleted b := by
  induction a with
  | nil => rfl
  | cons e es ih => cases e <;> simp [deleted, ih]

theorem created_creates (hs : List HBITMAP) : created (hs.map GdiEvent.create) = hs := by
  induction hs with
  | nil => rfl
  | cons h hs ih => simp [created, ih]

theorem created_deletes (hs : List HBITMAP) : created (hs.map GdiEvent.delete) = [] := by
  induction hs with
  | nil => rfl
  | cons h hs ih => simp [created, ih]

theorem deleted_creates (hs : List HBITMAP) : deleted (hs.map GdiEvent.create) = [] := by
  induction hs with
  | nil => rfl
  | cons h hs ih => simp [deleted, ih]

theorem deleted_deletes (hs : List HBITMAP) : deleted (hs.map GdiEvent.delete) = hs := by
  induction hs with
  | nil => rfl
  | cons h hs ih => simp [deleted, ih]

theorem liveAfter_append (live : Multiset HBITMAP) (a b : List GdiEvent) :
    liveAfter live (a ++ b) = liveAfter (liveAfter live a) b := by
  induction a generalizing live with
  | nil => rfl
  | cons e es ih => cases e <;> simp [liveAfter, ih]

theorem liveAfter_creates (live : Multiset HBITMAP) (hs : List HBITMAP) :
    liveAfter live (hs.map GdiEvent.create) = live + (hs : Multiset HBITMAP) := by
  induction hs generalizing live with
  | nil => simp [liveAfter]
  | cons h hs ih =>
    simp only [List.map_cons, liveAfter, ih]
    rw [← Multiset.cons_coe, Multiset.add_cons, Multiset.cons_add]

theorem liveAfter_deletes (live : Multiset HBITMAP) (hs : List HBITMAP) :
    liveAfter live (hs.map GdiEvent.delete) = live - (hs : Multiset HBITMAP) := by
  induction hs generalizing live with
  | nil => simp [liveAfter]
  | cons h hs ih =>
    simp only [List.map_cons, liveAfter, ih]
    rw [← Multiset.cons_coe, Multiset.sub_cons]

theorem liveAfter_balanced (live : Multiset HBITMAP) (hs : List HBITMAP) :
    liveAfter live (hs.map GdiEvent.create ++ hs.map GdiEvent.delete) = live := by
  rw [liveAfter_append, liveAfter_creates, liveAfter_deletes]
  exact add_tsub_cancel_right _ _

/-! ## What a call of ReadDatFile leaves -/

theorem fread_header (fp header fp1 : List Nat)
    (h : fread sizeofDatFileHeader fp = some (header, fp1)) :
    sizeofDatFileHeader ≤ fp.length ∧ header = fp.take sizeofDatFileHeader ∧
      header.take 4 = fp.take 4 ∧ headerNumImages header = headerNumImages fp ∧
      headerCycleTimeMs header = headerCycleTimeMs fp := by
  unfold fread at h
  split at h
  · rename_i hlen
    simp only [Option.some.injEq, Prod.mk.injEq] at h
    obtain ⟨rfl, _⟩ := h
    refine ⟨hlen, rfl, ?_, ?_, ?_⟩
    · simp [List.take_take, sizeofDatFileHeader]
    · simp [headerNumImages, sizeofDatFileHeader, List.drop_take, List.take_take]
    · simp [headerCycleTimeMs, sizeofDatFileHeader, List.drop_take, List.take_take]
  · cases h

theorem ReadDatFile_null_trace (LoadImageA : Nat → List Nat → HBITMAP)
    (file : Option (List Nat)) (site : FailSite)
    (h : (ReadDatFile LoadImageA file).ret = .null site) :
    ∃ hs : List HBITMAP, (∀ x ∈ hs, x ≠ 0) ∧ hs.length = site.handles ∧
      (ReadDatFile LoadImageA file).trace
        = hs.map GdiEvent.create ++ hs.map GdiEvent.delete := by
  cases file with
  | none =>
    simp only [ReadDatFile, Ret.null.injEq] at h ⊢
    subst h
    exact ⟨[], by simp, rfl, rfl⟩
  | some fp =>
    cases hread : fread sizeofDatFileHeader fp with
    | none =>
      simp only [ReadDatFile, hread, Ret.null.injEq] at h ⊢
      subst h
      exact ⟨[], by simp, rfl, rfl⟩
    | some p =>
      obtain ⟨header, fp1⟩ := p
      by_cases htag : header.take 4 = FILE_HEADER_TAG
      · obtain ⟨stored, k, h1, _, h3, h4, _, h6⟩ :=
          frameLoop_shape LoadImageA (headerCycleTimeMs header) (headerNumImages header) [] fp1
        simp only [List.nil_append, List.length_nil, Nat.zero_add] at h1 h4 h6
        cases hfail : (frameLoop LoadImageA (headerCycleTimeMs header) (headerNumImages header)
            0 fp1 (List.replicate (headerNumImages header) ⟨0, 0⟩)).failed with
        | none => simp [ReadDatFile, hread, htag, hfail] at h
        | some site1 =>
          simp only [ReadDatFile, hread, htag, hfail, ne_eq, not_true_eq_false, if_false,
            Ret.null.injEq] at h ⊢
          subst h
          refine ⟨stored.map (fun e => e.hBitmap), ?_, ?_, ?_⟩
          · intro x hx
            obtain ⟨e, he, rfl⟩ := List.mem_map.1 hx
            exact (h3 e he).1
          · simp [h6 site1 hfail]
          · rw [h4, h1, failCleanup_append, failCleanup_zeroed,
              failCleanup_stored stored (fun e he => (h3 e he).1)]
            simp [List.map_map, Function.comp_def]
      · simp only [ReadDatFile, hread, htag, ne_eq, not_false_eq_true, if_true,
          Ret.null.injEq] at h ⊢
        subst h
        exact ⟨[], by simp, rfl, rfl⟩

theorem ReadDatFile_ok_shape (LoadImageA : Nat → List Nat → HBITMAP)
    (file : Option (List Nat)) (dat : DatFile)
    (h : (ReadDatFile LoadImageA file).ret = .ok dat) :
    ∃ fp, file = some fp ∧ sizeofDatFileHeader ≤ fp.length ∧ fp.take 4 = FILE_HEADER_TAG ∧
      dat.numBitmaps = headerNumImages fp ∧ dat.bitmaps.length = dat.numBitmaps ∧
      (∀ e ∈ dat.bitmaps, e.hBitmap ≠ 0 ∧ e.delay = headerCycleTimeMs fp) ∧
      (ReadDatFile LoadImageA file).trace
        = dat.bitmaps.map (fun e => GdiEvent.create e.hBitmap) := by
  cases file with
  | none => simp [ReadDatFile] at h
  | some fp =>
    cases hread : fread sizeofDatFileHeader fp with
    | none => simp [ReadDatFile, hread] at h
    | some p =>
      obtain ⟨header, fp1⟩ := p
      obtain ⟨hlen, _, htake, hnum, hcyc⟩ := fread_header fp header fp1 hread
      by_cases htag : header.take 4 = FILE_HEADER_TAG
      · obtain ⟨stored, k, h1, h2, h3, h4, h5, _⟩ :=
          frameLoop_shape LoadImageA (headerCycleTimeMs header) (headerNumImages header) [] fp1
        simp only [List.nil_append, List.length_nil, Nat.zero_add] at h1 h4 h5
        cases hfail : (frameLoop LoadImageA (headerCycleTimeMs header) (headerNumImages header)
            0 fp1 (List.replicate (headerNumImages header) ⟨0, 0⟩)).failed with
        | some site1 => simp [ReadDatFile, hread, htag, hfail] at h
        | none =>
          simp only [ReadDatFile, hread, htag, hfail, ne_eq, not_true_eq_false, if_false,
            Ret.ok.injEq] at h ⊢
          subst h
          have hk : k = 0 := h5 hfail
          subst hk
          simp only [List.replicate_zero, List.append_nil, Nat.add_zero] at h1 h2
          refine ⟨fp, rfl, hlen, htake ▸ htag, hnum, ?_, ?_, ?_⟩
          · simp [h1, h2]
          · intro e he
            rw [h1] at he
            rw [← hcyc]
            exact h3 e he
          · simp [h4, h1]
      · simp [ReadDatFile, hread, htag] at h

/-! ## One frame record -/

theorem LoadBMPFromMemory_accepted (LoadImageA : Nat → List Nat → HBITMAP) (i : Nat)
    (data : List Nat) (h : LoadBMPFromMemory LoadImageA i data data.length ≠ 0) :
    LoadBMPFromMemory LoadImageA i data data.length = LoadImageA i data := by
  unfold LoadBMPFromMemory at h ⊢
  split
  · rename_i h0
    simp [h0] at h
  · rfl

theorem frameLoop_contentTag (LoadImageA : Nat → List Nat → HBITMAP) (cycle n i : Nat)
    (ch rest : List Nat) (bitmaps : List BitmapEntry)
    (hlen : ch.length = sizeofDatFileContentHeader)
    (htag : ch.take 4 ≠ CONTENT_HEADER_TAG) :
    frameLoop LoadImageA cycle (n + 1) i (ch ++ rest) bitmaps
      = ⟨some (.contentTag i), bitmaps, []⟩ := by
  rw [frameLoop, fread_append _ ch _ hlen]
  simp [htag]

theorem frameLoop_decode (LoadImageA : Nat → List Nat → HBITMAP) (cycle n i : Nat)
    (ch data rest : List Nat) (bitmaps : List BitmapEntry)
    (hlen : ch.length = sizeofDatFileContentHeader)
    (htag : ch.take 4 = CONTENT_HEADER_TAG)
    (hsize : recordSize ch = data.length)
    (hrej : LoadBMPFromMemory LoadImageA i data data.length = 0) :
    frameLoop LoadImageA cycle (n + 1) i (ch ++ data ++ rest) bitmaps
      = ⟨some (.decode i), bitmaps, []⟩ := by
  rw [frameLoop, List.append_assoc, fread_append _ ch _ hlen]
  simp only [htag, ne_eq, not_true_eq_false, if_false]
  rw [fread_append _ data _ hsize.symm]
  simp [hsize, hrej]

theorem frameLoop_decoded (LoadImageA : Nat → List Nat → HBITMAP) (cycle n i : Nat)
    (ch data rest : List Nat) (bitmaps : List BitmapEntry)
    (hlen : ch.length = sizeofDatFileContentHeader)
    (htag : ch.take 4 = CONTENT_HEADER_TAG)
    (hsize : recordSize ch = data.length)
    (hacc : LoadBMPFromMemory LoadImageA i data data.length ≠ 0) :
    frameLoop LoadImageA cycle (n + 1) i (ch ++ data ++ rest) bitmaps =
      match fread sizeofDatFileContentTrailer rest with
      | none => ⟨some (.trailerRead i), bitmaps.set i ⟨LoadImageA i data, cycle⟩,
          [.create (LoadImageA i data)]⟩
      | some (ct, fp3) =>
        if ct.take 4 ≠ CONTENT_TRAILER_TAG then
          ⟨some (.trailerTag i), bitmaps.set i ⟨LoadImageA i data, cycle⟩,
            [.create (LoadImageA i data)]⟩
        else if recordSize ct ≠ data.length then
          ⟨some (.sizeCheck i), bitmaps.set i ⟨LoadImageA i data, cycle⟩,
            [.create (LoadImageA i data)]⟩
        else
          ⟨(frameLoop LoadImageA cycle n (i + 1) fp3
              (bitmaps.set i ⟨LoadImageA i data, cycle⟩)).failed,
            (frameLoop LoadImageA cycle n (i + 1) fp3
              (bitmaps.set i ⟨LoadImageA i data, cycle⟩)).bitmaps,
            .create (LoadImageA i data) :: (frameLoop LoadImageA cycle n (i + 1) fp3
              (bitmaps.set i ⟨LoadImageA i data, cycle⟩)).trace⟩ := by
  have hL := LoadBMPFromMemory_accepted LoadImageA i data hacc
  rw [hL] at hacc
  rw [frameLoop, List.append_assoc, fread_append _ ch _ hlen]
  simp only [htag, ne_eq, not_true_eq_false, if_false]
  rw [fread_append _ data _ hsize.symm]
  simp only [hsize, hL, hacc, if_false]

/-- The sixteen bytes of the content header of a record. -/
theorem contentHeader_facts (f : FrameRecord) (ht : f.htag.length = 4) (hp : f.hpad.length = 4)
    (hd : f.declared < 18446744073709551616) :
    (f.htag ++ f.hpad ++ le64 f.declared).length = sizeofDatFileContentHeader ∧
    (f.htag ++ f.hpad ++ le64 f.declared).take 4 = f.htag ∧
    recordSize (f.htag ++ f.hpad ++ le64 f.declared) = f.declared :=
  ⟨record_length _ _ _ ht hp, record_tag _ _ _ ht, record_size _ _ _ ht hp hd⟩

theorem bytes_split (f : FrameRecord) (rest : List Nat) :
    f.bytes ++ rest = (f.htag ++ f.hpad ++ le64 f.declared) ++ f.payload ++
      ((f.ttag ++ f.tpad ++ le64 f.echoed) ++ rest) := by
  simp [FrameRecord.bytes, List.append_assoc]

/-- A well-formed record whose payload is accepted: the entry is stored and the
loop goes on with the next record. -/
theorem frameLoop_wellFormed (LoadImageA : Nat → List Nat → HBITMAP) (cycle n i : Nat)
    (f : FrameRecord) (rest : List Nat) (bitmaps : List BitmapEntry)
    (hf : f.wellFormed)
    (hacc : LoadBMPFromMemory LoadImageA i f.payload f.payload.length ≠ 0) :
    frameLoop LoadImageA cycle (n + 1) i (f.bytes ++ rest) bitmaps =
      ⟨(frameLoop LoadImageA cycle n (i + 1) rest
          (bitmaps.set i ⟨LoadImageA i f.payload, cycle⟩)).failed,
        (frameLoop LoadImageA cycle n (i + 1) rest
          (bitmaps.set i ⟨LoadImageA i f.payload, cycle⟩)).bitmaps,
        .create (LoadImageA i f.payload) :: (frameLoop LoadImageA cycle n (i + 1) rest
          (bitmaps.set i ⟨LoadImageA i f.payload, cycle⟩)).trace⟩ := by
  obtain ⟨h1, h2, h3, h4, h5, h6, h7⟩ := hf
  have hht : f.htag.length = 4 := by rw [h1]; rfl
  have htt : f.ttag.length = 4 := by rw [h5]; rfl
  obtain ⟨c1, c2, c3⟩ := contentHeader_facts f hht h2 h4
  rw [bytes_split, frameLoop_decoded LoadImageA cycle n i _ _ _ _ c1 (c2.trans h1)
    (c3.trans h3) hacc,
    fread_append sizeofDatFileContentTrailer _ _ (record_length _ _ _ htt h6)]
  have e1 : (f.ttag ++ f.tpad ++ le64 f.echoed).take 4 = CONTENT_TRAILER_TAG :=
    (record_tag _ _ _ htt).trans h5
  have e2 : recordSize (f.ttag ++ f.tpad ++ le64 f.echoed) = f.payload.length := by
    rw [record_size _ _ _ htt h6 (h7 ▸ h4), h7, h3]
  simp only [e1, e2, ne_eq, not_true_eq_false, if_false]

/-! ## A run of accepted records -/

theorem frameLoop_accepted (LoadImageA : Nat → List Nat → HBITMAP) (cycle : Nat) :
    ∀ (fs : List FrameRecord) (filled : List BitmapEntry) (n : Nat) (rest : List Nat),
      framesAccepted LoadImageA filled.length fs →
      frameLoop LoadImageA cycle (fs.length + n) filled.length (framesBytes fs ++ rest)
          (filled ++ List.replicate (fs.length + n) ⟨0, 0⟩) =
        ⟨(frameLoop LoadImageA cycle n (filled.length + fs.length) rest
            (filled ++ entriesOf LoadImageA cycle filled.length fs
              ++ List.replicate n ⟨0, 0⟩)).failed,
          (frameLoop LoadImageA cycle n (filled.length + fs.length) rest
            (filled ++ entriesOf LoadImageA cycle filled.length fs
              ++ List.replicate n ⟨0, 0⟩)).bitmaps,
          (entriesOf LoadImageA cycle filled.length fs).map (fun e => GdiEvent.create e.hBitmap)
            ++ (frameLoop LoadImageA cycle n (filled.length + fs.length) rest
              (filled ++ entriesOf LoadImageA cycle filled.length fs
                ++ List.replicate n ⟨0, 0⟩)).trace⟩ := by
  intro fs
  induction fs with
  | nil =>
    intro filled n rest _
    simp [framesBytes, entriesOf]
  | cons f fs ih =>
    intro filled n rest hacc
    obtain ⟨⟨hf, ha⟩, hrest⟩ := hacc
    have hlen : (f :: fs).length + n = (fs.length + n) + 1 := by simp; omega
    rw [hlen]
    simp only [framesBytes, List.append_assoc]
    rw [frameLoop_wellFormed LoadImageA cycle _ _ f _ _ hf ha, set_next]
    have hnext := ih (filled ++ [⟨LoadImageA filled.length f.payload, cycle⟩]) n rest
      (by simpa using hrest)
    simp only [List.length_append, List.length_singleton] at hnext
    rw [hnext]
    simp [entriesOf, Nat.add_assoc, Nat.add_comm 1]

/-! ## The header -/

theorem header_facts (sig4 preamble0 numImages cycleTimeMs : Nat) (body : List Nat)
    (hN : numImages < 65536) (hc : cycleTimeMs < 65536) :
    fread sizeofDatFileHeader
        (headerBytes FILE_HEADER_TAG sig4 preamble0 numImages cycleTimeMs ++ body)
      = some (headerBytes FILE_HEADER_TAG sig4 preamble0 numImages cycleTimeMs, body) ∧
    (headerBytes FILE_HEADER_TAG sig4 preamble0 numImages cycleTimeMs).take 4
      = FILE_HEADER_TAG ∧
    headerNumImages (headerBytes FILE_HEADER_TAG sig4 preamble0 numImages cycleTimeMs)
      = numImages ∧
    headerCycleTimeMs (headerBytes FILE_HEADER_TAG sig4 preamble0 numImages cycleTimeMs)
      = cycleTimeMs := by
  refine ⟨fread_append _ _ _ rfl, rfl, ?_, ?_⟩
  · have := fromLE_le16 numImages hN
    simpa [headerNumImages, headerBytes, FILE_HEADER_TAG, le16] using this
  · have := fromLE_le16 cycleTimeMs hc
    simpa [headerCycleTimeMs, headerBytes, FILE_HEADER_TAG, le16] using this

theorem ReadDatFile_header_ok (LoadImageA : Nat → List Nat → HBITMAP)
    (sig4 preamble0 numImages cycleTimeMs : Nat) (body : List Nat)
    (hN : numImages < 65536) (hc : cycleTimeMs < 65536)
    (hloop : (frameLoop LoadImageA cycleTimeMs numImages 0 body
      (List.replicate numImages ⟨0, 0⟩)).failed = none) :
    ReadDatFile LoadImageA
        (some (headerBytes FILE_HEADER_TAG sig4 preamble0 numImages cycleTimeMs ++ body))
      = ⟨.ok ⟨numImages, (frameLoop LoadImageA cycleTimeMs numImages 0 body
            (List.replicate numImages ⟨0, 0⟩)).bitmaps⟩,
          (frameLoop LoadImageA cycleTimeMs numImages 0 body
            (List.replicate numImages ⟨0, 0⟩)).trace⟩ := by
  obtain ⟨h1, h2, h3, h4⟩ := header_facts sig4 preamble0 numImages cycleTimeMs body hN hc
  simp only [ReadDatFile, h1, h2, h3, h4, hloop, ne_eq, not_true_eq_false, if_false]

theorem ReadDatFile_header_null (LoadImageA : Nat → List Nat → HBITMAP)
    (sig4 preamble0 numImages cycleTimeMs : Nat) (body : List Nat) (site : FailSite)
    (hN : numImages < 65536) (hc : cycleTimeMs < 65536)
    (hloop : (frameLoop LoadImageA cycleTimeMs numImages 0 body
      (List.replicate numImages ⟨0, 0⟩)).failed = some site) :
    (ReadDatFile LoadImageA
        (some (headerBytes FILE_HEADER_TAG sig4 preamble0 numImages cycleTimeMs ++ body))).ret
      = .null site := by
  obtain ⟨h1, h2, h3, h4⟩ := header_facts sig4 preamble0 numImages cycleTimeMs body hN hc
  simp only [ReadDatFile, h1, h2, h3, h4, hloop, ne_eq, not_true_eq_false, if_false]

theorem framesBytes_append (a b : List FrameRecord) :
    framesBytes (a ++ b) = framesBytes a ++ framesBytes b := by
  induction a with
  | nil => rfl
  | cons f fs ih => simp [framesBytes, ih]

theorem framesAccepted_append (LoadImageA : Nat → List Nat → HBITMAP) :
    ∀ (a b : List FrameRecord) (i : Nat),
      framesAccepted LoadImageA i (a ++ b) ↔
        framesAccepted LoadImageA i a ∧ framesAccepted LoadImageA (i + a.length) b := by
  intro a
  induction a with
  | nil => intro b i; simp [framesAccepted]
  | cons f fs ih =>
    intro b i
    have e : i + (fs.length + 1) = i + 1 + fs.length := by omega
    rw [List.cons_append, framesAccepted, framesAccepted, ih, List.length_cons, e]
    tauto

theorem entriesOf_length (LoadImageA : Nat → List Nat → HBITMAP) (cycle : Nat) :
    ∀ (fs : List FrameRecord) (i : Nat), (entriesOf LoadImageA cycle i fs).length = fs.length := by
  intro fs
  induction fs with
  | nil => intro i; rfl
  | cons f fs ih => intro i; simp [entriesOf, ih]

theorem entriesOf_getElem? (LoadImageA : Nat → List Nat → HBITMAP) (cycle : Nat) :
    ∀ (fs : List FrameRecord) (i j : Nat) (hj : j < fs.length),
      (entriesOf LoadImageA cycle i fs)[j]?
        = some ⟨LoadImageA (i + j) (fs[j]).payload, cycle⟩ := by
  intro fs
  induction fs with
  | nil => intro i j hj; simp at hj
  | cons f fs ih =>
    intro i j hj
    cases j with
    | zero => simp [entriesOf]
    | succ j =>
      have hj1 : j < fs.length := by simpa using hj
      simp only [entriesOf, List.getElem?_cons_succ, List.getElem_cons_succ]
      rw [ih (i + 1) j hj1, Nat.add_assoc, Nat.add_comm 1]

theorem framesAccepted_getElem (LoadImageA : Nat → List Nat → HBITMAP) :
    ∀ (fs : List FrameRecord) (i j : Nat) (hj : j < fs.length),
      framesAccepted LoadImageA i fs →
        (fs[j]).wellFormed ∧ LoadImageA (i + j) (fs[j]).payload ≠ 0 := by
  intro fs
  induction fs with
  | nil => intro i j hj; simp at hj
  | cons f fs ih =>
    intro i j hj hacc
    obtain ⟨⟨hf, ha⟩, hrest⟩ := hacc
    cases j with
    | zero =>
      refine ⟨hf, ?_⟩
      have := LoadBMPFromMemory_accepted LoadImageA i f.payload ha
      rw [this] at ha
      simpa using ha
    | succ j =>
      have hj1 : j < fs.length := by simpa using hj
      have := ih (i + 1) j hj1 hrest
      simpa [Nat.add_assoc, Nat.add_comm 1] using this

/-- The result of `ReadDatFile` on a container whose first records are accepted,
when the loop gives up in what follows them. -/
theorem ReadDatFile_after_accepted (LoadImageA : Nat → List Nat → HBITMAP)
    (sig4 preamble0 cycle : Nat) (pre : List FrameRecord) (n : Nat) (rest : List Nat)
    (site : FailSite)
    (hN : pre.length + n < 65536) (hc : cycle < 65536)
    (hacc : framesAccepted LoadImageA 0 pre)
    (hloop : (frameLoop LoadImageA cycle n pre.length rest
      (entriesOf LoadImageA cycle 0 pre ++ List.replicate n ⟨0, 0⟩)).failed = some site) :
    (ReadDatFile LoadImageA (some (headerBytes FILE_HEADER_TAG sig4 preamble0
        (pre.length + n) cycle ++ (framesBytes pre ++ rest)))).ret = .null site := by
  apply ReadDatFile_header_null _ _ _ _ _ _ _ hN hc
  have := frameLoop_accepted LoadImageA cycle pre [] n rest (by simpa using hacc)
  simp only [List.nil_append, List.length_nil, Nat.zero_add] at this
  rw [this]
  exact hloop

/-! ## A container with one record that is not as it should be -/

theorem ReadDatFile_null_live (LoadImageA : Nat → List Nat → HBITMAP)
    (file : Option (List Nat)) (site : FailSite) (live : Multiset HBITMAP)
    (h : (ReadDatFile LoadImageA file).ret = .null site) :
    liveAfter live (ReadDatFile LoadImageA file).trace = live := by
  obtain ⟨hs, _, _, htrace⟩ := ReadDatFile_null_trace LoadImageA file site h
  rw [htrace]
  exact liveAfter_balanced live hs

/-- The result of `ReadDatFile` on a container when the loop gives up in the
record that follows accepted ones. -/
theorem ReadDatFile_at_record (LoadImageA : Nat → List Nat → HBITMAP)
    (sig4 preamble0 cycle : Nat) (pre post : List FrameRecord) (g : FrameRecord)
    (site : FailSite)
    (hN : (pre ++ g :: post).length < 65536) (hc : cycle < 65536)
    (hacc : framesAccepted LoadImageA 0 pre)
    (hloop : ∀ bitmaps : List BitmapEntry,
      (frameLoop LoadImageA cycle (post.length + 1) pre.length
        (g.bytes ++ framesBytes post) bitmaps).failed = some site) :
    (ReadDatFile LoadImageA (some (containerBytes sig4 preamble0 cycle (pre ++ g :: post)))).ret
      = .null site := by
  have hlen : (pre ++ g :: post).length = pre.length + (post.length + 1) := by simp
  have hb : framesBytes (pre ++ g :: post) = framesBytes pre ++ (g.bytes ++ framesBytes post) := by
    rw [framesBytes_append, framesBytes]
  unfold containerBytes
  rw [hb, hlen]
  exact ReadDatFile_after_accepted LoadImageA sig4 preamble0 cycle pre (post.length + 1) _ site
    (hlen ▸ hN) hc hacc (hloop _)

theorem set_ne_self (l : List Nat) (k v : Nat) (hk : k < l.length) (hv : v ≠ l[k]) :
    l.set k v ≠ l := by
  intro h
  have h1 : (l.set k v)[k]? = some v := by
    rw [List.getElem?_set_self hk]
  rw [h, List.getElem?_eq_getElem hk] at h1
  exact hv (Option.some.inj h1).symm

/-- A record whose content header has the tag `IMAG` with one byte changed. -/
theorem frameLoop_bad_content_tag (LoadImageA : Nat → List Nat → HBITMAP) (cycle n i : Nat)
    (f : FrameRecord) (k v : Nat) (rest : List Nat) (bitmaps : List BitmapEntry)
    (hf : f.wellFormed) (hk : k < 4) (hv : f.htag[k]? ≠ some v) :
    (frameLoop LoadImageA cycle (n + 1) i
      (FrameRecord.bytes { f with htag := f.htag.set k v } ++ rest) bitmaps).failed
      = some (.contentTag i) := by
  obtain ⟨h1, h2, h3, h4, h5, h6, h7⟩ := hf
  have hlen : f.htag.length = 4 := by rw [h1]; rfl
  have hk1 : k < f.htag.length := by omega
  have hne : f.htag.set k v ≠ CONTENT_HEADER_TAG := by
    rw [← h1]
    apply set_ne_self _ _ _ hk1
    intro hv1
    apply hv
    rw [List.getElem?_eq_getElem hk1, hv1]
  have hlen1 : (f.htag.set k v).length = 4 := by rw [List.length_set, hlen]
  rw [bytes_split, List.append_assoc,
    frameLoop_contentTag LoadImageA cycle n i _ _ _ (record_length _ _ _ hlen1 h2)
      (by rw [record_tag _ _ _ hlen1]; exact hne)]

/-- A record that is well formed up to its trailer and whose payload is
accepted, followed by sixteen bytes `ct`. -/
theorem frameLoop_trailer (LoadImageA : Nat → List Nat → HBITMAP) (cycle n i : Nat)
    (f : FrameRecord) (ct rest : List Nat) (bitmaps : List BitmapEntry)
    (hf : f.wellFormed)
    (hacc : LoadBMPFromMemory LoadImageA i f.payload f.payload.length ≠ 0)
    (hct : ct.length = sizeofDatFileContentTrailer) :
    (frameLoop LoadImageA cycle (n + 1) i
      ((f.htag ++ f.hpad ++ le64 f.declared) ++ f.payload ++ (ct ++ rest)) bitmaps).failed =
      if ct.take 4 ≠ CONTENT_TRAILER_TAG then some (.trailerTag i)
      else if recordSize ct ≠ f.payload.length then some (.sizeCheck i)
      else (frameLoop LoadImageA cycle n (i + 1) rest
        (bitmaps.set i ⟨LoadImageA i f.payload, cycle⟩)).failed := by
  obtain ⟨h1, h2, h3, h4, h5, h6, h7⟩ := hf
  have hht : f.htag.length = 4 := by rw [h1]; rfl
  obtain ⟨c1, c2, c3⟩ := contentHeader_facts f hht h2 h4
  rw [frameLoop_decoded LoadImageA cycle n i _ _ _ _ c1 (c2.trans h1) (c3.trans h3) hacc,
    fread_append _ _ _ hct]
  dsimp only
  split
  · rfl
  · split <;> rfl

theorem frameLoop_bad_trailer_tag (LoadImageA : Nat → List Nat → HBITMAP) (cycle n i : Nat)
    (f : FrameRecord) (k v : Nat) (rest : List Nat) (bitmaps : List BitmapEntry)
    (hf : f.wellFormed)
    (hacc : LoadBMPFromMemory LoadImageA i f.payload f.payload.length ≠ 0)
    (hk : k < 4) (hv : f.ttag[k]? ≠ some v) :
    (frameLoop LoadImageA cycle (n + 1) i
      (FrameRecord.bytes { f with ttag := f.ttag.set k v } ++ rest) bitmaps).failed
      = some (.trailerTag i) := by
  have hf1 := hf
  obtain ⟨h1, h2, h3, h4, h5, h6, h7⟩ := hf1
  have hlen : f.ttag.length = 4 := by rw [h5]; rfl
  have hk1 : k < f.ttag.length := by omega
  have hne : f.ttag.set k v ≠ CONTENT_TRAILER_TAG := by
    rw [← h5]
    apply set_ne_self _ _ _ hk1
    intro hv1
    apply hv
    rw [List.getElem?_eq_getElem hk1, hv1]
  have hlen1 : (f.ttag.set k v).length = 4 := by rw [List.length_set, hlen]
  rw [bytes_split]
  dsimp only
  rw [frameLoop_trailer LoadImageA cycle n i f _ rest bitmaps hf hacc
    (record_length _ _ _ hlen1 h6), record_tag _ _ _ hlen1]
  simp [hne]

theorem frameLoop_bad_echo (LoadImageA : Nat → List Nat → HBITMAP) (cycle n i : Nat)
    (f : FrameRecord) (e : Nat) (rest : List Nat) (bitmaps : List BitmapEntry)
    (hf : f.wellFormed)
    (hacc : LoadBMPFromMemory LoadImageA i f.payload f.payload.length ≠ 0)
    (he : e ≠ f.declared) (he64 : e < 18446744073709551616) :
    (frameLoop LoadImageA cycle (n + 1) i
      (FrameRecord.bytes { f with echoed := e } ++ rest) bitmaps).failed
      = some (.sizeCheck i) := by
  have hf1 := hf
  obtain ⟨h1, h2, h3, h4, h5, h6, h7⟩ := hf1
  have hlen : f.ttag.length = 4 := by rw [h5]; rfl
  rw [bytes_split]
  dsimp only
  rw [frameLoop_trailer LoadImageA cycle n i f _ rest bitmaps hf hacc
    (record_length _ _ _ hlen h6), record_tag _ _ _ hlen, record_size _ _ _ hlen h6 he64]
  have : e ≠ f.payload.length := by rw [← h3]; exact he
  simp [h5, this]

/-! ## A payload one byte short -/

theorem short_payload_split (f : FrameRecord) (k : Nat) (rest : List Nat)
    (ht : f.ttag = CONTENT_TRAILER_TAG) :
    FrameRecord.bytes { f with payload := f.payload.eraseIdx k } ++ rest =
      (f.htag ++ f.hpad ++ le64 f.declared) ++ (f.payload.eraseIdx k ++ [84]) ++
        (82 :: 65 :: 73 :: (f.tpad ++ le64 f.echoed ++ rest)) := by
  simp [FrameRecord.bytes, ht, CONTENT_TRAILER_TAG, List.append_assoc]

theorem frameLoop_short_payload (LoadImageA : Nat → List Nat → HBITMAP) (cycle n i : Nat)
    (f : FrameRecord) (k : Nat) (rest : List Nat) (bitmaps : List BitmapEntry)
    (hf : f.wellFormed) (hk : k < f.payload.length) :
    (frameLoop LoadImageA cycle (n + 1) i
      (FrameRecord.bytes { f with payload := f.payload.eraseIdx k } ++ rest) bitmaps).failed =
      some (if LoadBMPFromMemory LoadImageA i (f.payload.eraseIdx k ++ [84]) f.declared = 0
        then .decode i
        else if rest = [] then .trailerRead i else .trailerTag i) := by
  obtain ⟨h1, h2, h3, h4, h5, h6, h7⟩ := hf
  have hht : f.htag.length = 4 := by rw [h1]; rfl
  obtain ⟨c1, c2, c3⟩ := contentHeader_facts f hht h2 h4
  have hdata : (f.payload.eraseIdx k ++ [84]).length = f.payload.length := by
    rw [List.length_append, List.length_eraseIdx, if_pos hk, List.length_singleton]
    omega
  have hsize : recordSize (f.htag ++ f.hpad ++ le64 f.declared)
      = (f.payload.eraseIdx k ++ [84]).length := by
    rw [c3, h3, hdata]
  have hcond : LoadBMPFromMemory LoadImageA i (f.payload.eraseIdx k ++ [84]) f.declared
      = LoadBMPFromMemory LoadImageA i (f.payload.eraseIdx k ++ [84])
          (f.payload.eraseIdx k ++ [84]).length := by
    rw [h3, hdata]
  rw [short_payload_split f k rest h5, hcond]
  by_cases hrej : LoadBMPFromMemory LoadImageA i (f.payload.eraseIdx k ++ [84])
      (f.payload.eraseIdx k ++ [84]).length = 0
  · rw [frameLoop_decode LoadImageA cycle n i _ _ _ _ c1 (c2.trans h1) hsize hrej, if_pos hrej]
  · rw [frameLoop_decoded LoadImageA cycle n i _ _ _ _ c1 (c2.trans h1) hsize hrej, if_neg hrej]
    by_cases hrest : rest = []
    · subst hrest
      rw [fread_short _ _ (by simp [h6, le64_length, sizeofDatFileContentTrailer])]
      simp
    · have hpos : 0 < rest.length := List.length_pos.2 hrest
      have hlen : sizeofDatFileContentTrailer
          ≤ (82 :: 65 :: 73 :: (f.tpad ++ le64 f.echoed ++ rest)).length := by
        simp only [List.length_cons, List.length_append, h6, le64_length,
          sizeofDatFileContentTrailer]
        omega
      simp only [fread, hlen, if_true, if_neg hrest]
      have htag : List.take 4 (List.take sizeofDatFileContentTrailer
          (82 :: 65 :: 73 :: (f.tpad ++ le64 f.echoed ++ rest))) ≠ CONTENT_TRAILER_TAG := by
        simp [sizeofDatFileContentTrailer, List.take_take, CONTENT_TRAILER_TAG]
      simp only [ne_eq, htag, not_false_eq_true, if_true]

/-! ## ReadDatFile on well-formed containers -/

/-- C1: for every list of `N` well-formed frame records whose payloads the decoder
accepts, every cycle time `c` and every value of the two header bytes that are
not compared, `ReadDatFile` on the header (tag `FILE`, count `N`, cycle `c`)
followed by the records returns a container of exactly `N` entries; entry `i`
holds the non-null handle the decoder gave for payload `i` and the delay `c`,
and no handle is deleted. -/
theorem ReadDatFile_wellFormed (LoadImageA : Nat → List Nat → HBITMAP)
    (sig4 preamble0 c : Nat) (frames : List FrameRecord)
    (hN : frames.length < 65536) (hc : c < 65536)
    (hacc : framesAccepted LoadImageA 0 frames) :
    ∃ dat : DatFile,
      (ReadDatFile LoadImageA (some (containerBytes sig4 preamble0 c frames))).ret = .ok dat ∧
      dat.numBitmaps = frames.length ∧ dat.bitmaps.length = frames.length ∧
      (∀ (i : Nat) (hi : i < frames.length),
        dat.bitmaps[i]? = some ⟨LoadImageA i (frames[i]).payload, c⟩ ∧
        LoadImageA i (frames[i]).payload ≠ 0) ∧
      (∀ e ∈ dat.bitmaps, e.hBitmap ≠ 0 ∧ e.delay = c) ∧
      deleted (ReadDatFile LoadImageA (some (containerBytes sig4 preamble0 c frames))).trace
        = [] := by
  have hrun := frameLoop_accepted LoadImageA c frames [] 0 [] (by simpa using hacc)
  simp only [List.nil_append, List.length_nil, Nat.zero_add, Nat.add_zero, List.append_nil,
    List.replicate_zero, frameLoop] at hrun
  have hok := ReadDatFile_header_ok LoadImageA sig4 preamble0 frames.length c
    (framesBytes frames) hN hc (by rw [hrun])
  rw [hrun] at hok
  refine ⟨⟨frames.length, entriesOf LoadImageA c 0 frames⟩, ?_, rfl, ?_, ?_, ?_, ?_⟩
  · unfold containerBytes
    rw [hok]
  · exact entriesOf_length LoadImageA c frames 0
  · intro i hi
    have h1 := entriesOf_getElem? LoadImageA c frames 0 i hi
    have h2 := (framesAccepted_getElem LoadImageA frames 0 i hi hacc).2
    simp only [Nat.zero_add] at h1 h2
    exact ⟨h1, h2⟩
  · intro e he
    obtain ⟨i, hi, hie⟩ := List.getElem_of_mem he
    have hi1 : i < frames.length := by
      rw [entriesOf_length] at hi; exact hi
    have h1 := entriesOf_getElem? LoadImageA c frames 0 i hi1
    have h2 := (framesAccepted_getElem LoadImageA frames 0 i hi1 hacc).2
    rw [List.getElem?_eq_getElem hi, hie] at h1
    simp only [Option.some.injEq] at h1
    subst h1
    exact ⟨h2, rfl⟩
  · unfold containerBytes
    rw [hok]
    simp only [List.append_nil]
    have : (entriesOf LoadImageA c 0 frames).map (fun e => GdiEvent.create e.hBitmap)
        = ((entriesOf LoadImageA c 0 frames).map (fun e => e.hBitmap)).map GdiEvent.create := by
      simp [List.map_map, Function.comp_def]
    rw [this, deleted_creates]

/-- Witness of C1: two records and the cycle time 100 give two entries with the
delays 100 and 100. -/
theorem ReadDatFile_wellFormed_witness :
    (twoFrames.length < 65536 ∧ 100 < 65536 ∧ framesAccepted countingDecoder 0 twoFrames) ∧
    (ReadDatFile countingDecoder (some (containerBytes 0 5 100 twoFrames))).ret
      = .ok ⟨2, [⟨1, 100⟩, ⟨2, 100⟩]⟩ ∧
    ∃ dat : DatFile,
      (ReadDatFile countingDecoder (some (containerBytes 0 5 100 twoFrames))).ret = .ok dat ∧
      dat.numBitmaps = twoFrames.length ∧ dat.bitmaps.length = twoFrames.length ∧
      (∀ (i : Nat) (hi : i < twoFrames.length),
        dat.bitmaps[i]? = some ⟨countingDecoder i (twoFrames[i]).payload, 100⟩ ∧
        countingDecoder i (twoFrames[i]).payload ≠ 0) ∧
      (∀ e ∈ dat.bitmaps, e.hBitmap ≠ 0 ∧ e.delay = 100) ∧
      deleted (ReadDatFile countingDecoder (some (containerBytes 0 5 100 twoFrames))).trace
        = [] :=
  ⟨⟨by decide, by decide, by decide⟩, by decide,
    ReadDatFile_wellFormed countingDecoder 0 5 100 twoFrames (by decide) (by decide)
      (by decide)⟩

/-! ## Failure leaves nothing behind -/

/-- C2: whenever `ReadDatFile` returns `NULL`, at whatever place, no container is
returned, the handles it obtained are non-null and as many as the frames decoded
up to that place (the frame whose trailer was being checked included), the
handles deleted are exactly the handles obtained, each once and after all were
obtained, and the live bitmap objects are the ones there were before the call. -/
theorem ReadDatFile_all_or_nothing (LoadImageA : Nat → List Nat → HBITMAP)
    (file : Option (List Nat)) (site : FailSite) (live : Multiset HBITMAP)
    (h : (ReadDatFile LoadImageA file).ret = .null site) :
    (ReadDatFile LoadImageA file).ret.dat = none ∧
    (∀ x ∈ created (ReadDatFile LoadImageA file).trace, x ≠ 0) ∧
    (created (ReadDatFile LoadImageA file).trace).length = site.handles ∧
    deleted (ReadDatFile LoadImageA file).trace = created (ReadDatFile LoadImageA file).trace ∧
    (ReadDatFile LoadImageA file).trace
      = (created (ReadDatFile LoadImageA file).trace).map GdiEvent.create
        ++ (created (ReadDatFile LoadImageA file).trace).map GdiEvent.delete ∧
    liveAfter live (ReadDatFile LoadImageA file).trace = live := by
  obtain ⟨hs, hnz, hlen, htrace⟩ := ReadDatFile_null_trace LoadImageA file site h
  have hc : created (ReadDatFile LoadImageA file).trace = hs := by
    rw [htrace, created_append, created_creates, created_deletes, List.append_nil]
  have hd : deleted (ReadDatFile LoadImageA file).trace = hs := by
    rw [htrace, deleted_append, deleted_creates, deleted_deletes, List.nil_append]
  refine ⟨by rw [h]; rfl, ?_, ?_, ?_, ?_, ?_⟩
  · rw [hc]; exact hnz
  · rw [hc]; exact hlen
  · rw [hc, hd]
  · rw [hc]; exact htrace
  · rw [htrace]; exact liveAfter_balanced live hs

/-- Witness of C2: the two-record container cut in the middle of its second
trailer; both handles are deleted. -/
theorem ReadDatFile_all_or_nothing_witness :
    (ReadDatFile countingDecoder (some ((containerBytes 0 5 100 twoFrames).take 70))).ret
      = .null (.trailerRead 1) ∧
    ((ReadDatFile countingDecoder
        (some ((containerBytes 0 5 100 twoFrames).take 70))).ret.dat = none ∧
    (∀ x ∈ created (ReadDatFile countingDecoder
        (some ((containerBytes 0 5 100 twoFrames).take 70))).trace, x ≠ 0) ∧
    (created (ReadDatFile countingDecoder
        (some ((containerBytes 0 5 100 twoFrames).take 70))).trace).length
      = (FailSite.trailerRead 1).handles ∧
    deleted (ReadDatFile countingDecoder
        (some ((containerBytes 0 5 100 twoFrames).take 70))).trace
      = created (ReadDatFile countingDecoder
        (some ((containerBytes 0 5 100 twoFrames).take 70))).trace ∧
    (ReadDatFile countingDecoder (some ((containerBytes 0 5 100 twoFrames).take 70))).trace
      = (created (ReadDatFile countingDecoder
          (some ((containerBytes 0 5 100 twoFrames).take 70))).trace).map GdiEvent.create
        ++ (created (ReadDatFile countingDecoder
          (some ((containerBytes 0 5 100 twoFrames).take 70))).trace).map GdiEvent.delete ∧
    liveAfter {7} (ReadDatFile countingDecoder
        (some ((containerBytes 0 5 100 twoFrames).take 70))).trace = {7}) :=
  ⟨by decide, ReadDatFile_all_or_nothing countingDecoder _ (.trailerRead 1) {7} (by decide)⟩

/-! ## The layout of the header -/

theorem header_fields (b : List Nat) (h : sizeofDatFileHeader ≤ b.length) :
    headerNumImages b = b.getD 6 0 + 256 * b.getD 7 0 ∧
    headerCycleTimeMs b = b.getD 8 0 + 256 * b.getD 9 0 := by
  match b, h with
  | b0 :: b1 :: b2 :: b3 :: b4 :: b5 :: b6 :: b7 :: b8 :: b9 :: rest, _ =>
    simp [headerNumImages, headerCycleTimeMs, fromLE]

/-- C7, as the code has it: for every byte stream `b` that `ReadDatFile` accepts,
`b` has at least ten bytes, the first four are `FILE`, the frame count is the
little-endian 16-bit value `b[6] + 256 * b[7]` and the delay of every frame is
the little-endian 16-bit value `b[8] + 256 * b[9]`; bytes 4 and 5 (the end of
`Signature[5]` and `preamble0`) are not looked at. -/
theorem ReadDatFile_header_layout (LoadImageA : Nat → List Nat → HBITMAP)
    (b : List Nat) (dat : DatFile)
    (h : (ReadDatFile LoadImageA (some b)).ret = .ok dat) :
    10 ≤ b.length ∧ b.take 4 = FILE_HEADER_TAG ∧
    dat.numBitmaps = b.getD 6 0 + 256 * b.getD 7 0 ∧
    dat.bitmaps.length = b.getD 6 0 + 256 * b.getD 7 0 ∧
    ∀ e ∈ dat.bitmaps, e.delay = b.getD 8 0 + 256 * b.getD 9 0 := by
  obtain ⟨fp, hfile, hlen, htag, hnum, hblen, hent, _⟩ :=
    ReadDatFile_ok_shape LoadImageA (some b) dat h
  cases hfile
  obtain ⟨f1, f2⟩ := header_fields b hlen
  refine ⟨hlen, htag, by rw [hnum, f1], by rw [hblen, hnum, f1], ?_⟩
  intro e he
  rw [(hent e he).2, f2]

/-- Witness of the amended C7: the two-record container with `preamble0 = 5`. -/
theorem ReadDatFile_header_layout_witness :
    (ReadDatFile countingDecoder (some (containerBytes 0 5 100 twoFrames))).ret
      = .ok ⟨2, [⟨1, 100⟩, ⟨2, 100⟩]⟩ ∧
    (10 ≤ (containerBytes 0 5 100 twoFrames).length ∧
      (containerBytes 0 5 100 twoFrames).take 4 = FILE_HEADER_TAG ∧
      (DatFile.mk 2 [⟨1, 100⟩, ⟨2, 100⟩]).numBitmaps
        = (containerBytes 0 5 100 twoFrames).getD 6 0
          + 256 * (containerBytes 0 5 100 twoFrames).getD 7 0 ∧
      (DatFile.mk 2 [⟨1, 100⟩, ⟨2, 100⟩]).bitmaps.length
        = (containerBytes 0 5 100 twoFrames).getD 6 0
          + 256 * (containerBytes 0 5 100 twoFrames).getD 7 0 ∧
      ∀ e ∈ (DatFile.mk 2 [⟨1, 100⟩, ⟨2, 100⟩]).bitmaps,
        e.delay = (containerBytes 0 5 100 twoFrames).getD 8 0
          + 256 * (containerBytes 0 5 100 twoFrames).getD 9 0) :=
  ⟨by decide, ReadDatFile_header_layout countingDecoder _ _ (by decide)⟩

/-- Counterexample to C7 as stated: the two-record container with the cycle time
100 and `preamble0 = 5` is accepted with 2 frames of delay 100, while
`b[5] + 256 * b[6]` is 517 and `b[7] + 256 * b[8]` is 25600. -/
theorem header_layout_counterexample :
    (ReadDatFile countingDecoder (some (containerBytes 0 5 100 twoFrames))).ret
      = .ok ⟨2, [⟨1, 100⟩, ⟨2, 100⟩]⟩ ∧
    (containerBytes 0 5 100 twoFrames).getD 5 0
      + 256 * (containerBytes 0 5 100 twoFrames).getD 6 0 = 517 ∧
    (containerBytes 0 5 100 twoFrames).getD 7 0
      + 256 * (containerBytes 0 5 100 twoFrames).getD 8 0 = 25600 := by
  decide

/-! ## The trailer's size -/

/-- C8: in a container of well-formed, accepted records, when the trailer of the
record at index `pre.length` echoes a 64-bit size `e` other than the declared
one, `ReadDatFile` gives up at the size comparison of that record (the
specification's `SizeMismatch`) and returns no container. -/
theorem ReadDatFile_size_mismatch (LoadImageA : Nat → List Nat → HBITMAP)
    (sig4 preamble0 c : Nat) (pre post : List FrameRecord) (f : FrameRecord) (e : Nat)
    (hN : (pre ++ f :: post).length < 65536) (hc : c < 65536)
    (hacc : framesAccepted LoadImageA 0 (pre ++ f :: post))
    (he : e ≠ f.declared) (he64 : e < 18446744073709551616) :
    (ReadDatFile LoadImageA (some (containerBytes sig4 preamble0 c
        (pre ++ { f with echoed := e } :: post)))).ret = .null (.sizeCheck pre.length) ∧
    specErrorOf (.sizeCheck pre.length) = .SizeMismatch ∧
    (ReadDatFile LoadImageA (some (containerBytes sig4 preamble0 c
        (pre ++ { f with echoed := e } :: post)))).ret.dat = none := by
  obtain ⟨hpre, ⟨hf, ha⟩, _⟩ := (framesAccepted_append LoadImageA pre (f :: post) 0).1 hacc
  rw [Nat.zero_add] at ha
  have hret := ReadDatFile_at_record LoadImageA sig4 preamble0 c pre post
    { f with echoed := e } (.sizeCheck pre.length) (by simpa using hN) hc hpre
    (fun bitmaps => frameLoop_bad_echo LoadImageA c _ _ f e _ bitmaps hf ha he he64)
  exact ⟨hret, rfl, by rw [hret]; rfl⟩

/-- Witness of C8: the two-record container whose second trailer echoes `S1 + 1`. -/
theorem ReadDatFile_size_mismatch_witness :
    (([frameOf [66, 77, 1]] ++ frameOf [66, 77] :: []).length < 65536 ∧ 100 < 65536 ∧
      framesAccepted countingDecoder 0 ([frameOf [66, 77, 1]] ++ frameOf [66, 77] :: []) ∧
      3 ≠ (frameOf [66, 77]).declared ∧ 3 < 18446744073709551616) ∧
    ((ReadDatFile countingDecoder (some (containerBytes 0 5 100
        ([frameOf [66, 77, 1]] ++ { frameOf [66, 77] with echoed := 3 } :: [])))).ret
      = .null (.sizeCheck [frameOf [66, 77, 1]].length) ∧
    specErrorOf (.sizeCheck [frameOf [66, 77, 1]].length) = .SizeMismatch ∧
    (ReadDatFile countingDecoder (some (containerBytes 0 5 100
        ([frameOf [66, 77, 1]] ++ { frameOf [66, 77] with echoed := 3 } :: [])))).ret.dat
      = none) :=
  ⟨⟨by decide, by decide, by decide, by decide, by decide⟩,
    ReadDatFile_size_mismatch countingDecoder 0 5 100 [frameOf [66, 77, 1]] []
      (frameOf [66, 77]) 3 (by decide) (by decide) (by decide) (by decide) (by decide)⟩

/-! ## The magic tags -/

/-- C9: in a container of well-formed, accepted records, when one of the four tag
bytes of the content header of the record at index `pre.length` is changed to
another value, `ReadDatFile` gives up at the tag comparison of that content
header, and when one of the four tag bytes of its trailer is changed, at the tag
comparison of that trailer (the specification's `BadMagic` both times); it
returns no container, every handle obtained is deleted and the live bitmap
objects are those there were before. -/
theorem ReadDatFile_bad_magic (LoadImageA : Nat → List Nat → HBITMAP)
    (sig4 preamble0 c : Nat) (pre post : List FrameRecord) (f : FrameRecord) (k v : Nat)
    (live : Multiset HBITMAP)
    (hN : (pre ++ f :: post).length < 65536) (hc : c < 65536)
    (hacc : framesAccepted LoadImageA 0 (pre ++ f :: post))
    (hk : k < 4) :
    (CONTENT_HEADER_TAG[k]? ≠ some v →
      (ReadDatFile LoadImageA (some (containerBytes sig4 preamble0 c
          (pre ++ { f with htag := f.htag.set k v } :: post)))).ret
        = .null (.contentTag pre.length) ∧
      specErrorOf (.contentTag pre.length) = .BadMagic ∧
      deleted (ReadDatFile LoadImageA (some (containerBytes sig4 preamble0 c
          (pre ++ { f with htag := f.htag.set k v } :: post)))).trace
        = created (ReadDatFile LoadImageA (some (containerBytes sig4 preamble0 c
          (pre ++ { f with htag := f.htag.set k v } :: post)))).trace ∧
      liveAfter live (ReadDatFile LoadImageA (some (containerBytes sig4 preamble0 c
          (pre ++ { f with htag := f.htag.set k v } :: post)))).trace = live) ∧
    (CONTENT_TRAILER_TAG[k]? ≠ some v →
      (ReadDatFile LoadImageA (some (containerBytes sig4 preamble0 c
          (pre ++ { f with ttag := f.ttag.set k v } :: post)))).ret
        = .null (.trailerTag pre.length) ∧
      specErrorOf (.trailerTag pre.length) = .BadMagic ∧
      deleted (ReadDatFile LoadImageA (some (containerBytes sig4 preamble0 c
          (pre ++ { f with ttag := f.ttag.set k v } :: post)))).trace
        = created (ReadDatFile LoadImageA (some (containerBytes sig4 preamble0 c
          (pre ++ { f with ttag := f.ttag.set k v } :: post)))).trace ∧
      liveAfter live (ReadDatFile LoadImageA (some (containerBytes sig4 preamble0 c
          (pre ++ { f with ttag := f.ttag.set k v } :: post)))).trace = live) := by
  obtain ⟨hpre, ⟨hf, ha⟩, _⟩ := (framesAccepted_append LoadImageA pre (f :: post) 0).1 hacc
  rw [Nat.zero_add] at ha
  have balanced : ∀ (file : Option (List Nat)) (site : FailSite),
      (ReadDatFile LoadImageA file).ret = .null site →
        deleted (ReadDatFile LoadImageA file).trace
          = created (ReadDatFile LoadImageA file).trace := by
    intro file site hnull
    obtain ⟨hs, _, _, htrace⟩ := ReadDatFile_null_trace LoadImageA file site hnull
    rw [htrace, created_append, created_creates, created_deletes, deleted_append,
      deleted_creates, deleted_deletes, List.append_nil, List.nil_append]
  constructor
  · intro hv
    have hret := ReadDatFile_at_record LoadImageA sig4 preamble0 c pre post
      { f with htag := f.htag.set k v } (.contentTag pre.length) (by simpa using hN) hc hpre
      (fun bitmaps => frameLoop_bad_content_tag LoadImageA c _ _ f k v _ bitmaps hf hk
        (by rw [hf.1]; exact hv))
    exact ⟨hret, rfl, balanced _ _ hret, ReadDatFile_null_live LoadImageA _ _ live hret⟩
  · intro hv
    have hret := ReadDatFile_at_record LoadImageA sig4 preamble0 c pre post
      { f with ttag := f.ttag.set k v } (.trailerTag pre.length) (by simpa using hN) hc hpre
      (fun bitmaps => frameLoop_bad_trailer_tag LoadImageA c _ _ f k v _ bitmaps hf ha hk
        (by rw [hf.2.2.2.2.1]; exact hv))
    exact ⟨hret, rfl, balanced _ _ hret, ReadDatFile_null_live LoadImageA _ _ live hret⟩

/-- Witness of C9: the second record of the two-record container with the third
tag byte of its content header, or of its trailer, set to zero. -/
theorem ReadDatFile_bad_magic_witness :
    (([frameOf [66, 77, 1]] ++ frameOf [66, 77] :: []).length < 65536 ∧ 100 < 65536 ∧
      framesAccepted countingDecoder 0 ([frameOf [66, 77, 1]] ++ frameOf [66, 77] :: []) ∧
      2 < 4 ∧ CONTENT_HEADER_TAG[2]? ≠ some 0 ∧ CONTENT_TRAILER_TAG[2]? ≠ some 0) ∧
    ((ReadDatFile countingDecoder (some (containerBytes 0 5 100
          ([frameOf [66, 77, 1]] ++
            { frameOf [66, 77] with htag := (frameOf [66, 77]).htag.set 2 0 } :: [])))).ret
        = .null (.contentTag [frameOf [66, 77, 1]].length) ∧
      specErrorOf (.contentTag [frameOf [66, 77, 1]].length) = .BadMagic ∧
      deleted (ReadDatFile countingDecoder (some (containerBytes 0 5 100
          ([frameOf [66, 77, 1]] ++
            { frameOf [66, 77] with htag := (frameOf [66, 77]).htag.set 2 0 } :: [])))).trace
        = created (ReadDatFile countingDecoder (some (containerBytes 0 5 100
          ([frameOf [66, 77, 1]] ++
            { frameOf [66, 77] with htag := (frameOf [66, 77]).htag.set 2 0 } :: [])))).trace ∧
      liveAfter {7} (ReadDatFile countingDecoder (some (containerBytes 0 5 100
          ([frameOf [66, 77, 1]] ++
            { frameOf [66, 77] with htag := (frameOf [66, 77]).htag.set 2 0 } :: [])))).trace
        = {7}) ∧
    ((ReadDatFile countingDecoder (some (containerBytes 0 5 100
          ([frameOf [66, 77, 1]] ++
            { frameOf [66, 77] with ttag := (frameOf [66, 77]).ttag.set 2 0 } :: [])))).ret
        = .null (.trailerTag [frameOf [66, 77, 1]].length) ∧
      specErrorOf (.trailerTag [frameOf [66, 77, 1]].length) = .BadMagic ∧
      deleted (ReadDatFile countingDecoder (some (containerBytes 0 5 100
          ([frameOf [66, 77, 1]] ++
            { frameOf [66, 77] with ttag := (frameOf [66, 77]).ttag.set 2 0 } :: [])))).trace
        = created (ReadDatFile countingDecoder (some (containerBytes 0 5 100
          ([frameOf [66, 77, 1]] ++
            { frameOf [66, 77] with ttag := (frameOf [66, 77]).ttag.set 2 0 } :: [])))).trace ∧
      liveAfter {7} (ReadDatFile countingDecoder (some (containerBytes 0 5 100
          ([frameOf [66, 77, 1]] ++
            { frameOf [66, 77] with ttag := (frameOf [66, 77]).ttag.set 2 0 } :: [])))).trace
        = {7}) :=
  ⟨⟨by decide, by decide, by decide, by decide, by decide, by decide⟩,
    (ReadDatFile_bad_magic countingDecoder 0 5 100 [frameOf [66, 77, 1]] []
      (frameOf [66, 77]) 2 0 {7} (by decide) (by decide) (by decide) (by decide)).1 (by decide),
    (ReadDatFile_bad_magic countingDecoder 0 5 100 [frameOf [66, 77, 1]] []
      (frameOf [66, 77]) 2 0 {7} (by decide) (by decide) (by decide) (by decide)).2 (by decide)⟩

/-! ## A payload with one byte removed -/

theorem framesBytes_eq_nil (LoadImageA : Nat → List Nat → HBITMAP) (i : Nat)
    (fs : List FrameRecord) (h : framesAccepted LoadImageA i fs) :
    framesBytes fs = [] ↔ fs = [] := by
  cases fs with
  | nil => simp [framesBytes]
  | cons g gs =>
    have hg : g.htag = CONTENT_HEADER_TAG := h.1.1.1
    simp [framesBytes, FrameRecord.bytes, hg, CONTENT_HEADER_TAG]

/-- C10, as the code has it: in a container of well-formed, accepted records,
when one byte is removed from the payload of the record at index `pre.length`
and the declared size is left as it was, `ReadDatFile` returns no container and
the live bitmap objects are those there were before.  The payload read is
complete: it takes the first byte of the trailer (84, `T`) as the last byte of
the payload.  `ReadDatFile` gives up at the decode when the decoder rejects
these bytes (`DecodeFailed`); otherwise at the read of the trailer when the
record is the last one (`Truncated`), and at the comparison of the trailer tag
when another record follows (`BadMagic`). -/
theorem ReadDatFile_short_payload (LoadImageA : Nat → List Nat → HBITMAP)
    (sig4 preamble0 c : Nat) (pre post : List FrameRecord) (f : FrameRecord) (k : Nat)
    (live : Multiset HBITMAP)
    (hN : (pre ++ f :: post).length < 65536) (hc : c < 65536)
    (hacc : framesAccepted LoadImageA 0 (pre ++ f :: post))
    (hk : k < f.payload.length) :
    (ReadDatFile LoadImageA (some (containerBytes sig4 preamble0 c
        (pre ++ { f with payload := f.payload.eraseIdx k } :: post)))).ret
      = .null
        (if LoadBMPFromMemory LoadImageA pre.length (f.payload.eraseIdx k ++ [84]) f.declared = 0
          then .decode pre.length
          else if post = [] then .trailerRead pre.length else .trailerTag pre.length) ∧
    specErrorOf
        (if LoadBMPFromMemory LoadImageA pre.length (f.payload.eraseIdx k ++ [84]) f.declared = 0
          then .decode pre.length
          else if post = [] then .trailerRead pre.length else .trailerTag pre.length)
      = (if LoadBMPFromMemory LoadImageA pre.length (f.payload.eraseIdx k ++ [84]) f.declared = 0
          then .DecodeFailed
          else if post = [] then .Truncated else .BadMagic) ∧
    (ReadDatFile LoadImageA (some (containerBytes sig4 preamble0 c
        (pre ++ { f with payload := f.payload.eraseIdx k } :: post)))).ret.dat = none ∧
    liveAfter live (ReadDatFile LoadImageA (some (containerBytes sig4 preamble0 c
        (pre ++ { f with payload := f.payload.eraseIdx k } :: post)))).trace = live := by
  obtain ⟨hpre, ⟨hf, _⟩, hpost⟩ := (framesAccepted_append LoadImageA pre (f :: post) 0).1 hacc
  have hnil := framesBytes_eq_nil LoadImageA _ post hpost
  have hret := ReadDatFile_at_record LoadImageA sig4 preamble0 c pre post
    { f with payload := f.payload.eraseIdx k } _ (by simpa using hN) hc hpre
    (fun bitmaps => frameLoop_short_payload LoadImageA c _ _ f k _ bitmaps hf hk)
  simp only [hnil] at hret
  refine ⟨hret, ?_, by rw [hret]; rfl, ReadDatFile_null_live LoadImageA _ _ live hret⟩
  split
  · rfl
  · split <;> rfl

/-- Witness of the amended C10: the first byte removed from the first payload of
the two-record container; the decoder accepts, another record follows. -/
theorem ReadDatFile_short_payload_witness :
    (([] ++ frameOf [66, 77, 1] :: [frameOf [66, 77]]).length < 65536 ∧ 100 < 65536 ∧
      framesAccepted countingDecoder 0 ([] ++ frameOf [66, 77, 1] :: [frameOf [66, 77]]) ∧
      0 < (frameOf [66, 77, 1]).payload.length) ∧
    (ReadDatFile countingDecoder (some (containerBytes 0 5 100
        ([] ++ { frameOf [66, 77, 1] with payload := (frameOf [66, 77, 1]).payload.eraseIdx 0 }
          :: [frameOf [66, 77]])))).ret = .null (.trailerTag 0) ∧
    ((ReadDatFile countingDecoder (some (containerBytes 0 5 100
        ([] ++ { frameOf [66, 77, 1] with payload := (frameOf [66, 77, 1]).payload.eraseIdx 0 }
          :: [frameOf [66, 77]])))).ret
      = .null
        (if LoadBMPFromMemory countingDecoder ([] : List FrameRecord).length
            ((frameOf [66, 77, 1]).payload.eraseIdx 0 ++ [84]) (frameOf [66, 77, 1]).declared = 0
          then .decode ([] : List FrameRecord).length
          else if [frameOf [66, 77]] = [] then .trailerRead ([] : List FrameRecord).length
            else .trailerTag ([] : List FrameRecord).length) ∧
    specErrorOf
        (if LoadBMPFromMemory countingDecoder ([] : List FrameRecord).length
            ((frameOf [66, 77, 1]).payload.eraseIdx 0 ++ [84]) (frameOf [66, 77, 1]).declared = 0
          then .decode ([] : List FrameRecord).length
          else if [frameOf [66, 77]] = [] then .trailerRead ([] : List FrameRecord).length
            else .trailerTag ([] : List FrameRecord).length)
      = (if LoadBMPFromMemory countingDecoder ([] : List FrameRecord).length
            ((frameOf [66, 77, 1]).payload.eraseIdx 0 ++ [84]) (frameOf [66, 77, 1]).declared = 0
          then .DecodeFailed
          else if [frameOf [66, 77]] = [] then .Truncated else .BadMagic) ∧
    (ReadDatFile countingDecoder (some (containerBytes 0 5 100
        ([] ++ { frameOf [66, 77, 1] with payload := (frameOf [66, 77, 1]).payload.eraseIdx 0 }
          :: [frameOf [66, 77]])))).ret.dat = none ∧
    liveAfter {7} (ReadDatFile countingDecoder (some (containerBytes 0 5 100
        ([] ++ { frameOf [66, 77, 1] with payload := (frameOf [66, 77, 1]).payload.eraseIdx 0 }
          :: [frameOf [66, 77]])))).trace = {7}) :=
  ⟨⟨by decide, by decide, by decide, by decide⟩, by decide,
    ReadDatFile_short_payload countingDecoder 0 5 100 [] [frameOf [66, 77]]
      (frameOf [66, 77, 1]) 0 {7} (by decide) (by decide) (by decide) (by decide)⟩

/-- Counterexample to C10 as stated: with the first byte removed from the first
payload of the two-record container, the payload read is complete and
`ReadDatFile` gives up at the comparison of the trailer tag of record 0, which
is `BadMagic`; no failure named `Truncated` occurs. -/
theorem truncated_payload_counterexample :
    framesAccepted countingDecoder 0 twoFrames ∧
    (ReadDatFile countingDecoder (some (containerBytes 0 5 100
        [{ frameOf [66, 77, 1] with payload := [77, 1] }, frameOf [66, 77]]))).ret
      = .null (.trailerTag 0) ∧
    specErrorOf (.trailerTag 0) = .BadMagic ∧
    ¬ ∃ site, (ReadDatFile countingDecoder (some (containerBytes 0 5 100
        [{ frameOf [66, 77, 1] with payload := [77, 1] }, frameOf [66, 77]]))).ret
      = .null site ∧ specErrorOf site = .Truncated := by
  have h : (ReadDatFile countingDecoder (some (containerBytes 0 5 100
        [{ frameOf [66, 77, 1] with payload := [77, 1] }, frameOf [66, 77]]))).ret
      = .null (.trailerTag 0) := by decide
  refine ⟨by decide, h, rfl, ?_⟩
  rintro ⟨site, hs, hk⟩
  rw [h] at hs
  cases hs
  cases hk

/-! ## The timer -/

theorem dwordSub_self (t : Nat) : dwordSub t t = 0 := by
  unfold dwordSub
  omega

theorem dwordSub_monotone (now last : Nat) (h : last ≤ now) (hnow : now < 4294967296) :
    dwordSub now last = now - last := by
  unfold dwordSub
  omega

theorem entryAt_inRange (dat : DatFile) (idx : Int)
    (hlen : dat.bitmaps.length = dat.numBitmaps) (h0 : 0 ≤ idx)
    (h1 : idx < (dat.numBitmaps : Int)) :
    ∃ bmp, entryAt dat idx = some bmp ∧ bmp ∈ dat.bitmaps := by
  have hlt : idx.toNat < dat.bitmaps.length := by omega
  refine ⟨dat.bitmaps[idx.toNat], ?_, List.getElem_mem _⟩
  simp [entryAt, h0, List.getElem?_eq_getElem hlt]

theorem entryAt_some (dat : DatFile) (idx : Int) (bmp : BitmapEntry)
    (h : entryAt dat idx = some bmp) :
    0 ≤ idx ∧ idx < (dat.bitmaps.length : Int) ∧ bmp ∈ dat.bitmaps := by
  unfold entryAt at h
  split at h
  · rename_i h0
    obtain ⟨hlt, hget⟩ := List.getElem?_eq_some_iff.1 h
    refine ⟨h0, by omega, ?_⟩
    rw [← hget]
    exact List.getElem_mem _
  · cases h

theorem next_frame (cf : Int) (n : Nat) (h0 : 0 ≤ cf) (h1 : cf < (n : Int)) :
    (if cf + 1 ≥ (n : Int) then 0 else cf + 1) = (cf + 1) % (n : Int) := by
  split
  · have : cf + 1 = (n : Int) := by omega
    rw [this, Int.emod_self]
  · rw [Int.emod_eq_of_lt (by omega) (by omega)]

/-- C3, as the code has it: the body of the `WM_TIMER` loop, for tick counts that
are `DWORD`s.  An entry without a container is left as it is and no redraw is
asked for.  For an entry with a container of `numBitmaps > 0` entries and
`0 ≤ currentFrame < numBitmaps`, with `bmp` the array element
`bitmaps[currentFrame]`: when the difference of `now` and `lastUpdateTime`
modulo `2^32` is at least `bmp.delay`, the index becomes
`(currentFrame + 1) mod numBitmaps`, `lastUpdateTime` becomes `now` and a redraw
is asked for; otherwise the entry is left as it is and no redraw is asked for.
So the index after a tick is the index before or the next one, whatever the
time elapsed.  Whenever `lastUpdateTime ≤ now` the tick is the step function of
the specification, `tickSpec`, with its plain difference. -/
theorem timerTick_step (now lastUpdateTime : Nat) (currentFrame : Int)
    (hnow : now < 4294967296) (hlast : lastUpdateTime < 4294967296) :
    timerTick now ⟨none, currentFrame, lastUpdateTime⟩
      = some (⟨none, currentFrame, lastUpdateTime⟩, false) ∧
    ∀ dat : DatFile, dat.bitmaps.length = dat.numBitmaps → 0 < dat.numBitmaps →
      0 ≤ currentFrame → currentFrame < (dat.numBitmaps : Int) →
      ∃ bmp : BitmapEntry, dat.bitmaps[currentFrame.toNat]? = some bmp ∧
        timerTick now ⟨some dat, currentFrame, lastUpdateTime⟩
          = (if bmp.delay ≤ (now + 4294967296 - lastUpdateTime) % 4294967296 then
              some (⟨some dat, (currentFrame + 1) % (dat.numBitmaps : Int), now⟩, true)
            else some (⟨some dat, currentFrame, lastUpdateTime⟩, false)) ∧
        (∃ vp1 redraw, timerTick now ⟨some dat, currentFrame, lastUpdateTime⟩
            = some (vp1, redraw) ∧
          (vp1.currentFrame = currentFrame ∨
            vp1.currentFrame = (currentFrame + 1) % (dat.numBitmaps : Int))) ∧
        (lastUpdateTime ≤ now →
          timerTick now ⟨some dat, currentFrame, lastUpdateTime⟩
            = some (tickSpec now ⟨some dat, currentFrame, lastUpdateTime⟩)) := by
  refine ⟨rfl, ?_⟩
  intro dat hlen _ h0 h1
  obtain ⟨bmp, hbmp, _⟩ := entryAt_inRange dat currentFrame hlen h0 h1
  have hidx : dat.bitmaps[currentFrame.toNat]? = some bmp := by
    simpa [entryAt, h0] using hbmp
  have hsub : dwordSub now lastUpdateTime
      = (now + 4294967296 - lastUpdateTime) % 4294967296 := by
    unfold dwordSub
    omega
  have hnext := next_frame currentFrame dat.numBitmaps h0 h1
  have htick : timerTick now ⟨some dat, currentFrame, lastUpdateTime⟩
      = (if bmp.delay ≤ (now + 4294967296 - lastUpdateTime) % 4294967296 then
          some (⟨some dat, (currentFrame + 1) % (dat.numBitmaps : Int), now⟩, true)
        else some (⟨some dat, currentFrame, lastUpdateTime⟩, false)) := by
    simp only [timerTick, hbmp, ge_iff_le, hsub, hnext]
  refine ⟨bmp, hidx, htick, ?_, ?_⟩
  · rw [htick]
    split
    · exact ⟨_, _, rfl, Or.inr rfl⟩
    · exact ⟨_, _, rfl, Or.inl rfl⟩
  · intro hle
    have hd : (dat.bitmaps.getD currentFrame.toNat ⟨0, 0⟩).delay = bmp.delay := by
      rw [List.getD_eq_getElem?_getD, hidx]
      rfl
    rw [htick]
    simp only [tickSpec, hd]
    by_cases hcmp : bmp.delay ≤ (now + 4294967296 - lastUpdateTime) % 4294967296
    · have hspec : ((now : Int) - (lastUpdateTime : Int)) ≥ (bmp.delay : Int) := by omega
      rw [if_pos hcmp, if_pos hspec]
    · have hspec : ¬ ((now : Int) - (lastUpdateTime : Int)) ≥ (bmp.delay : Int) := by omega
      rw [if_neg hcmp, if_neg hspec]

/-- Witness of the amended C3: frame 1 of 2, with the delays 100 and 30, last
updated at 50: the tick at 80 wraps to frame 0, the tick at 79 leaves the entry
as it is; and, last updated at 4294967290, the tick at 24 advances. -/
theorem timerTick_step_witness :
    ((80 : Nat) < 4294967296 ∧ (50 : Nat) < 4294967296 ∧
      (DatFile.mk 2 [⟨1, 100⟩, ⟨2, 30⟩]).bitmaps.length
        = (DatFile.mk 2 [⟨1, 100⟩, ⟨2, 30⟩]).numBitmaps ∧
      0 < (DatFile.mk 2 [⟨1, 100⟩, ⟨2, 30⟩]).numBitmaps ∧ (0 : Int) ≤ 1 ∧
      (1 : Int) < ((DatFile.mk 2 [⟨1, 100⟩, ⟨2, 30⟩]).numBitmaps : Int)) ∧
    timerTick 80 ⟨some ⟨2, [⟨1, 100⟩, ⟨2, 30⟩]⟩, 1, 50⟩
      = some (⟨some ⟨2, [⟨1, 100⟩, ⟨2, 30⟩]⟩, 0, 80⟩, true) ∧
    timerTick 79 ⟨some ⟨2, [⟨1, 100⟩, ⟨2, 30⟩]⟩, 1, 50⟩
      = some (⟨some ⟨2, [⟨1, 100⟩, ⟨2, 30⟩]⟩, 1, 50⟩, false) ∧
    timerTick 24 ⟨some ⟨2, [⟨1, 100⟩, ⟨2, 30⟩]⟩, 1, 4294967290⟩
      = some (⟨some ⟨2, [⟨1, 100⟩, ⟨2, 30⟩]⟩, 0, 24⟩, true) ∧
    timerTick 80 ⟨none, 1, 50⟩ = some (⟨none, 1, 50⟩, false) ∧
    ∃ bmp : BitmapEntry,
      (DatFile.mk 2 [⟨1, 100⟩, ⟨2, 30⟩]).bitmaps[(1 : Int).toNat]? = some bmp ∧
      timerTick 80 ⟨some ⟨2, [⟨1, 100⟩, ⟨2, 30⟩]⟩, 1, 50⟩
        = (if bmp.delay ≤ (80 + 4294967296 - 50) % 4294967296 then
            some (⟨some ⟨2, [⟨1, 100⟩, ⟨2, 30⟩]⟩,
              (1 + 1) % ((DatFile.mk 2 [⟨1, 100⟩, ⟨2, 30⟩]).numBitmaps : Int), 80⟩, true)
          else some (⟨some ⟨2, [⟨1, 100⟩, ⟨2, 30⟩]⟩, 1, 50⟩, false)) ∧
      (∃ vp1 redraw, timerTick 80 ⟨some ⟨2, [⟨1, 100⟩, ⟨2, 30⟩]⟩, 1, 50⟩
          = some (vp1, redraw) ∧
        (vp1.currentFrame = 1 ∨
          vp1.currentFrame
            = (1 + 1) % ((DatFile.mk 2 [⟨1, 100⟩, ⟨2, 30⟩]).numBitmaps : Int))) ∧
      ((50 : Nat) ≤ 80 →
        timerTick 80 ⟨some ⟨2, [⟨1, 100⟩, ⟨2, 30⟩]⟩, 1, 50⟩
          = some (tickSpec 80 ⟨some ⟨2, [⟨1, 100⟩, ⟨2, 30⟩]⟩, 1, 50⟩)) :=
  ⟨⟨by decide, by decide, by decide, by decide, by decide, by decide⟩,
    by decide, by decide, by decide,
    (timerTick_step 80 50 1 (by decide) (by decide)).1,
    (timerTick_step 80 50 1 (by decide) (by decide)).2 ⟨2, [⟨1, 100⟩, ⟨2, 30⟩]⟩
      (by decide) (by decide) (by decide) (by decide)⟩

/-- Counterexample to C3 as stated: on a two-frame container with the delay 10,
frame 0 last updated at tick count 4294967290, the tick at 5 (the counter has
wrapped, 11 ms later) advances to frame 1 and asks for a redraw, while
`now - lastUpdateTime` is negative, so the step function of the specification
leaves the entry as it is; the same with the delay 100, last update 200 and
the tick at 100. -/
theorem timerTick_wrap_counterexample :
    (ReadDatFile countingDecoder (some (containerBytes 0 5 10 twoFrames))).ret
      = .ok ⟨2, [⟨1, 10⟩, ⟨2, 10⟩]⟩ ∧
    timerTick 5 ⟨some ⟨2, [⟨1, 10⟩, ⟨2, 10⟩]⟩, 0, 4294967290⟩
      = some (⟨some ⟨2, [⟨1, 10⟩, ⟨2, 10⟩]⟩, 1, 5⟩, true) ∧
    ¬ ((5 : Int) - 4294967290 ≥ 10) ∧
    tickSpec 5 ⟨some ⟨2, [⟨1, 10⟩, ⟨2, 10⟩]⟩, 0, 4294967290⟩
      = (⟨some ⟨2, [⟨1, 10⟩, ⟨2, 10⟩]⟩, 0, 4294967290⟩, false) ∧
    timerTick 5 ⟨some ⟨2, [⟨1, 10⟩, ⟨2, 10⟩]⟩, 0, 4294967290⟩
      ≠ some (tickSpec 5 ⟨some ⟨2, [⟨1, 10⟩, ⟨2, 10⟩]⟩, 0, 4294967290⟩) ∧
    timerTick 100 ⟨some ⟨2, [⟨1, 100⟩, ⟨2, 100⟩]⟩, 0, 200⟩
      = some (⟨some ⟨2, [⟨1, 100⟩, ⟨2, 100⟩]⟩, 1, 100⟩, true) ∧
    tickSpec 100 ⟨some ⟨2, [⟨1, 100⟩, ⟨2, 100⟩]⟩, 0, 200⟩
      = (⟨some ⟨2, [⟨1, 100⟩, ⟨2, 100⟩]⟩, 0, 200⟩, false) := by
  decide

/-! ## The frame index stays in range -/

theorem handle_inRange (dat : DatFile) (vp : Viewport) (m : Msg)
    (hlen : dat.bitmaps.length = dat.numBitmaps) (hpos : 0 < dat.numBitmaps)
    (hdat : vp.dat = some dat) (h0 : 0 ≤ vp.currentFrame)
    (h1 : vp.currentFrame < (dat.numBitmaps : Int)) :
    ∃ vp1, handle vp m = some vp1 ∧ vp1.dat = some dat ∧ 0 ≤ vp1.currentFrame ∧
      vp1.currentFrame < (dat.numBitmaps : Int) := by
  cases m with
  | timer now =>
    obtain ⟨bmp, hbmp, _⟩ := entryAt_inRange dat vp.currentFrame hlen h0 h1
    by_cases hd : bmp.delay ≤ dwordSub now vp.lastUpdateTime
    · refine ⟨⟨vp.dat, if vp.currentFrame + 1 ≥ (dat.numBitmaps : Int) then 0
        else vp.currentFrame + 1, now⟩, ?_, hdat, ?_, ?_⟩
      · simp only [handle, timerTick, hdat, hbmp, ge_iff_le, hd, if_true, Option.map_some']
      · dsimp only
        split <;> omega
      · dsimp only
        split <;> omega
    · refine ⟨vp, ?_, hdat, h0, h1⟩
      simp only [handle, timerTick, hdat, hbmp, ge_iff_le, hd, if_false, Option.map_some']
  | keyF5 now =>
    refine ⟨⟨vp.dat, 0, now⟩, ?_, hdat, le_refl _, ?_⟩
    · simp only [handle, resetF5, hdat]
    · show (0 : Int) < (dat.numBitmaps : Int)
      omega

theorem handleAll_inRange (dat : DatFile)
    (hlen : dat.bitmaps.length = dat.numBitmaps) (hpos : 0 < dat.numBitmaps) :
    ∀ (msgs : List Msg) (vp : Viewport), vp.dat = some dat → 0 ≤ vp.currentFrame →
      vp.currentFrame < (dat.numBitmaps : Int) →
      ∃ vp1, handleAll vp msgs = some vp1 ∧ vp1.dat = some dat ∧ 0 ≤ vp1.currentFrame ∧
        vp1.currentFrame < (dat.numBitmaps : Int) := by
  intro msgs
  induction msgs with
  | nil =>
    intro vp hdat h0 h1
    exact ⟨vp, rfl, hdat, h0, h1⟩
  | cons m ms ih =>
    intro vp hdat h0 h1
    obtain ⟨vp1, hstep, hdat1, h01, h11⟩ := handle_inRange dat vp m hlen hpos hdat h0 h1
    obtain ⟨vp2, hrun, hrest⟩ := ih vp1 hdat1 h01 h11
    refine ⟨vp2, ?_, hrest⟩
    simp only [handleAll, hstep, hrun]

/-- C4: a viewport created on a container that `ReadDatFile` returned, with at
least one frame, handles every sequence of timer ticks and F5 resets, at any
tick counts, without a read outside the array; afterwards it still holds that
container, `0 ≤ currentFrame < numBitmaps`, every further tick finds its frame
in the array, and painting draws the bitmap of the current frame. -/
theorem currentFrame_inRange (LoadImageA : Nat → List Nat → HBITMAP)
    (file : Option (List Nat)) (t : Nat) (msgs : List Msg) (dat : DatFile)
    (hdat : (ReadDatFile LoadImageA file).ret = .ok dat) (hpos : 0 < dat.numBitmaps) :
    ∃ vp, handleAll (createViewport LoadImageA file t) msgs = some vp ∧
      vp.dat = some dat ∧ 0 ≤ vp.currentFrame ∧ vp.currentFrame < (dat.numBitmaps : Int) ∧
      (∀ now, ∃ r, timerTick now vp = some r) ∧
      ∃ e, entryAt dat vp.currentFrame = some e ∧ paintLookup vp = some (some e.hBitmap) := by
  obtain ⟨_, _, _, _, _, hlen, hent, _⟩ := ReadDatFile_ok_shape LoadImageA file dat hdat
  have hinit : (createViewport LoadImageA file t).dat = some dat := by
    simp only [createViewport, hdat, Ret.dat]
  obtain ⟨vp, hrun, hvdat, h0, h1⟩ := handleAll_inRange dat hlen hpos msgs
    (createViewport LoadImageA file t) hinit (le_refl _) (by simp only [createViewport]; omega)
  obtain ⟨bmp, hbmp, hmem⟩ := entryAt_inRange dat vp.currentFrame hlen h0 h1
  refine ⟨vp, hrun, hvdat, h0, h1, ?_, bmp, hbmp, ?_⟩
  · intro now
    by_cases hd : bmp.delay ≤ dwordSub now vp.lastUpdateTime
    · simp only [timerTick, hvdat, hbmp, ge_iff_le, hd, if_true]
      exact ⟨_, rfl⟩
    · simp only [timerTick, hvdat, hbmp, ge_iff_le, hd, if_false]
      exact ⟨_, rfl⟩
  · have hguard : ¬ (vp.currentFrame < 0 ∨ vp.currentFrame ≥ (dat.numBitmaps : Int)) := by omega
    simp only [paintLookup, hvdat, hguard, if_false, hbmp, (hent bmp hmem).1]

/-- Witness of C4: the two-record container, a tick, a reset and a tick. -/
theorem currentFrame_inRange_witness :
    ((ReadDatFile countingDecoder (some (containerBytes 0 5 100 twoFrames))).ret
        = .ok ⟨2, [⟨1, 100⟩, ⟨2, 100⟩]⟩ ∧
      0 < (DatFile.mk 2 [⟨1, 100⟩, ⟨2, 100⟩]).numBitmaps) ∧
    handleAll (createViewport countingDecoder (some (containerBytes 0 5 100 twoFrames)) 50)
        [.timer 150, .keyF5 160, .timer 400]
      = some ⟨some ⟨2, [⟨1, 100⟩, ⟨2, 100⟩]⟩, 1, 400⟩ ∧
    ∃ vp, handleAll (createViewport countingDecoder (some (containerBytes 0 5 100 twoFrames)) 50)
        [.timer 150, .keyF5 160, .timer 400] = some vp ∧
      vp.dat = some ⟨2, [⟨1, 100⟩, ⟨2, 100⟩]⟩ ∧ 0 ≤ vp.currentFrame ∧
      vp.currentFrame < ((DatFile.mk 2 [⟨1, 100⟩, ⟨2, 100⟩]).numBitmaps : Int) ∧
      (∀ now, ∃ r, timerTick now vp = some r) ∧
      ∃ e, entryAt ⟨2, [⟨1, 100⟩, ⟨2, 100⟩]⟩ vp.currentFrame = some e ∧
        paintLookup vp = some (some e.hBitmap) :=
  ⟨⟨by decide, by decide⟩, by decide,
    currentFrame_inRange countingDecoder (some (containerBytes 0 5 100 twoFrames)) 50
      [.timer 150, .keyF5 160, .timer 400] ⟨2, [⟨1, 100⟩, ⟨2, 100⟩]⟩ (by decide) (by decide)⟩

/-! ## The empty container -/

/-- C5, what the code does: the ten-byte file of a header with `NumImages = 0` is
accepted and gives a container with no entry; on a viewport bound to it the
timer reads `bitmaps[0]`, outside the empty array, at every tick, whatever the
tick counts, while painting skips the viewport. -/
theorem timerTick_empty_container (LoadImageA : Nat → List Nat → HBITMAP) (now t : Nat) :
    (ReadDatFile LoadImageA (some (containerBytes 0 5 100 []))).ret = .ok ⟨0, []⟩ ∧
    createViewport LoadImageA (some (containerBytes 0 5 100 [])) t = ⟨some ⟨0, []⟩, 0, t⟩ ∧
    entryAt ⟨0, []⟩ 0 = none ∧
    timerTick now (createViewport LoadImageA (some (containerBytes 0 5 100 [])) t) = none ∧
    paintLookup (createViewport LoadImageA (some (containerBytes 0 5 100 [])) t) = some none :=
  ⟨rfl, rfl, rfl, rfl, rfl⟩

/-! ## Ticks at one time -/

/-- C6, as the code has it: for a viewport on a container that `ReadDatFile`
returned from a file whose header has a cycle time other than zero, whatever
its frame index and last update, if the tick at `t` advances the frame then the
next tick at the same `t` asks for no redraw and leaves the entry as the first
tick left it. -/
theorem timerTick_idempotent (LoadImageA : Nat → List Nat → HBITMAP)
    (b : List Nat) (dat : DatFile) (currentFrame : Int) (lastUpdateTime t : Nat)
    (vp1 : Viewport)
    (hdat : (ReadDatFile LoadImageA (some b)).ret = .ok dat)
    (hcycle : headerCycleTimeMs b ≠ 0)
    (hadv : timerTick t ⟨some dat, currentFrame, lastUpdateTime⟩ = some (vp1, true)) :
    timerTick t vp1 = some (vp1, false) := by
  obtain ⟨fp, hfile, _, _, _, hlen, hent, _⟩ := ReadDatFile_ok_shape LoadImageA (some b) dat hdat
  cases hfile
  cases hbmp : entryAt dat currentFrame with
  | none => simp [timerTick, hbmp] at hadv
  | some bmp =>
    obtain ⟨h0, h1, _⟩ := entryAt_some dat currentFrame bmp hbmp
    rw [hlen] at h1
    by_cases hd : bmp.delay ≤ dwordSub t lastUpdateTime
    · simp only [timerTick, hbmp, ge_iff_le, hd, if_true, Option.some.injEq, Prod.mk.injEq,
        and_true] at hadv
      subst hadv
      have hn0 : (0 : Int) ≤ (if currentFrame + 1 ≥ (dat.numBitmaps : Int) then 0
          else currentFrame + 1) := by split <;> omega
      have hn1 : (if currentFrame + 1 ≥ (dat.numBitmaps : Int) then 0
          else currentFrame + 1) < (dat.numBitmaps : Int) := by split <;> omega
      obtain ⟨bmp1, hbmp1, hmem1⟩ := entryAt_inRange dat _ hlen hn0 hn1
      have hdelay : ¬ bmp1.delay ≤ dwordSub t t := by
        rw [dwordSub_self, (hent bmp1 hmem1).2]
        omega
      simp only [timerTick, hbmp1, ge_iff_le, hdelay, if_false]
    · simp [timerTick, hbmp, hd] at hadv

/-- Witness of the amended C6: the two-record container with the cycle time 100,
frame 0 last updated at 50, ticks at 150. -/
theorem timerTick_idempotent_witness :
    ((ReadDatFile countingDecoder (some (containerBytes 0 5 100 twoFrames))).ret
        = .ok ⟨2, [⟨1, 100⟩, ⟨2, 100⟩]⟩ ∧
      headerCycleTimeMs (containerBytes 0 5 100 twoFrames) ≠ 0 ∧
      timerTick 150 ⟨some ⟨2, [⟨1, 100⟩, ⟨2, 100⟩]⟩, 0, 50⟩
        = some (⟨some ⟨2, [⟨1, 100⟩, ⟨2, 100⟩]⟩, 1, 150⟩, true)) ∧
    timerTick 150 ⟨some ⟨2, [⟨1, 100⟩, ⟨2, 100⟩]⟩, 1, 150⟩
      = some (⟨some ⟨2, [⟨1, 100⟩, ⟨2, 100⟩]⟩, 1, 150⟩, false) :=
  ⟨⟨by decide, by decide, by decide⟩,
    timerTick_idempotent countingDecoder (containerBytes 0 5 100 twoFrames)
      ⟨2, [⟨1, 100⟩, ⟨2, 100⟩]⟩ 0 50 150 ⟨some ⟨2, [⟨1, 100⟩, ⟨2, 100⟩]⟩, 1, 150⟩
      (by decide) (by decide) (by decide)⟩

/-- Counterexample to C6 as stated: the two-record container with the cycle time
0 is accepted; on it the tick at 7 advances frame 0 to frame 1, and the next
tick at 7 advances again, to frame 0, and asks for a redraw. -/
theorem idempotent_counterexample :
    (ReadDatFile countingDecoder (some (containerBytes 0 5 0 twoFrames))).ret
      = .ok ⟨2, [⟨1, 0⟩, ⟨2, 0⟩]⟩ ∧
    timerTick 7 ⟨some ⟨2, [⟨1, 0⟩, ⟨2, 0⟩]⟩, 0, 3⟩
      = some (⟨some ⟨2, [⟨1, 0⟩, ⟨2, 0⟩]⟩, 1, 7⟩, true) ∧
    timerTick 7 ⟨some ⟨2, [⟨1, 0⟩, ⟨2, 0⟩]⟩, 1, 7⟩
      = some (⟨some ⟨2, [⟨1, 0⟩, ⟨2, 0⟩]⟩, 0, 7⟩, true) ∧
    timerTick 7 ⟨some ⟨2, [⟨1, 0⟩, ⟨2, 0⟩]⟩, 1, 7⟩
      ≠ some (⟨some ⟨2, [⟨1, 0⟩, ⟨2, 0⟩]⟩, 1, 7⟩, false) := by
  decide

end Viewports
